import Mathlib

/-!
Verification development for the x402-sentinel watcher-marketplace backend.

The definitions below are a shallow embedding of the repository code:
  * `src/routes/watchers.js` — the `POST /watchers` creation handler
    (`postWatchers`) and the `POST /cron/check` trigger-engine handler
    (`runCycle` / `processWatcher`);
  * `src/store.js` — the record store (lists of records plus a fresh-id
    counter standing for `generateId`);
  * `src/executors/index.js` — the executor registry (`getExecutor`);
  * `src/models.js` — the revenue-split constants.

Monetary amounts are modelled over `ℚ` (JS numbers carrying exact decimal
values in the code paths involved).  Timestamps are modelled as `Nat`.
External effects (the evaluator's `check` network call and the webhook
`fetch`) are modelled by an environment (`CycleEnv`) supplying, per watcher
id, either a thrown error or the returned value, exactly matching the
try/catch structure of the handler.
-/

/-- Watcher configuration is opaque to the core (owned by the evaluator). -/
abbrev Config := String

/-- Evaluator result payload, opaque to the core. -/
abbrev CheckData := String

/-- Watcher status, `status ∈ \x7bactive, paused, expired\x7d`. -/
inductive WStatus
  | active
  | paused
  | expired
deriving DecidableEq, Repr

/-- A watcher instance (src/store.js `createWatcher` shape / models.js `WatcherSchema`). -/
structure Watcher where
  id : Nat
  typeId : Nat
  operatorId : Nat
  customerId : String
  config : Config
  webhook : String
  status : WStatus
  createdAt : Nat
  lastChecked : Option Nat
  lastCheckResult : Option CheckData
  lastTriggered : Option Nat
  triggerCount : Nat
deriving DecidableEq, Repr

/-- An operator (only the fields the embedded handlers read or write). -/
structure Operator where
  id : Nat
  statsWatchersCreated : Nat
  statsTotalTriggers : Nat
deriving DecidableEq, Repr

/-- A watcher type.  `executorId` is an optional string field in JS; `none`
models an absent field and `some ""` an empty string (both JS-falsy). -/
structure WatcherType where
  id : Nat
  operatorId : Nat
  executorId : Option String
  price : ℚ
  statsInstances : Nat
  statsTriggers : Nat
deriving DecidableEq, Repr

/-- A payment record (src/routes/watchers.js lines 91-99). -/
structure Payment where
  id : Nat
  watcherId : Nat
  operatorId : Nat
  customerId : String
  amount : ℚ
  operatorShare : ℚ
  platformShare : ℚ
  network : String
  createdAt : Nat
deriving DecidableEq, Repr

/-- The canonical creation-parameter tuple `(typeId, config, webhook, customerId)`
that the fulfillment fingerprint is computed from. -/
structure CreateParams where
  typeId : Nat
  config : Config
  webhook : String
  customerId : String
deriving DecidableEq, Repr

/-- Modelled from the spec: `store.generateFulfillmentHash` is not under
`src/`.  Spec 4.1 requires a deterministic, collision-resistant digest of the
canonical serialization of the parameters; it is modelled as an idealized
perfect hash, i.e. the canonical parameter record itself. -/
abbrev FulfillmentHash := CreateParams

/-- Modelled from the spec: the digest function itself (deterministic,
injective on canonical parameters). -/
def generateFulfillmentHash (p : CreateParams) : FulfillmentHash := p

/-- A receipt (fields as constructed at src/routes/watchers.js lines 102-112). -/
structure Receipt where
  id : Nat
  watcherId : Nat
  typeId : Nat
  amount : ℚ
  chain : String
  rail : String
  fulfillmentHash : FulfillmentHash
  customerId : String
  operatorId : Nat
  paymentId : Nat
deriving DecidableEq, Repr

/-- The record store: one list per entity (src/store.js keeps one JSON file
per entity) plus a fresh-id counter standing for `generateId`. -/
structure Store where
  operators : List Operator
  types : List WatcherType
  watchers : List Watcher
  payments : List Payment
  receipts : List Receipt
  nextId : Nat
deriving DecidableEq, Repr

/-- Update the first list element satisfying `p` (JS `findIndex` + assign). -/
def updateFirst (p : α → Bool) (f : α → α) : List α → List α
  | [] => []
  | x :: xs => if p x then f x :: xs else x :: updateFirst p f xs

/-- src/store.js `getOperator`. -/
def getOperator (s : Store) (oid : Nat) : Option Operator :=
  s.operators.find? (fun o => o.id == oid)

/-- src/store.js `getWatcherType`. -/
def getWatcherType (s : Store) (tid : Nat) : Option WatcherType :=
  s.types.find? (fun t => t.id == tid)

/-- src/store.js `getWatcher`. -/
def getWatcher (s : Store) (i : Nat) : Option Watcher :=
  s.watchers.find? (fun w => w.id == i)

/-- src/store.js `createWatcher` (lines 399-413): fresh id, `status: active`,
`lastChecked: null`, `lastTriggered: null`, `triggerCount: 0`, appended. -/
def createWatcher (s : Store) (now : Nat) (typeId operatorId : Nat)
    (customerId : String) (config : Config) (webhook : String) : Watcher × Store :=
  let nw : Watcher :=
    { id := s.nextId, typeId := typeId, operatorId := operatorId,
      customerId := customerId, config := config, webhook := webhook,
      status := .active, createdAt := now, lastChecked := none,
      lastCheckResult := none, lastTriggered := none, triggerCount := 0 }
  (nw, { s with watchers := s.watchers ++ [nw], nextId := s.nextId + 1 })

/-- src/store.js `updateWatcher`: merge-update the first record with the id
(no-op when absent, as `findIndex` returns -1). -/
def updateWatcher (s : Store) (i : Nat) (f : Watcher → Watcher) : Store :=
  { s with watchers := updateFirst (fun w => w.id == i) f s.watchers }

/-- src/store.js `createPayment`: fresh id, appended. -/
def createPayment (s : Store) (now : Nat) (watcherId operatorId : Nat)
    (customerId : String) (amount operatorShare platformShare : ℚ)
    (network : String) : Payment × Store :=
  let np : Payment :=
    { id := s.nextId, watcherId := watcherId, operatorId := operatorId,
      customerId := customerId, amount := amount,
      operatorShare := operatorShare, platformShare := platformShare,
      network := network, createdAt := now }
  (np, { s with payments := s.payments ++ [np], nextId := s.nextId + 1 })

/-- Modelled from the spec: `store.createReceipt` is not under `src/`.
Spec 4.1: the `fulfillmentHash → Receipt` mapping is append-only; the record
carries the fields passed at src/routes/watchers.js lines 102-112. -/
def createReceipt (s : Store) (watcherId typeId : Nat) (amount : ℚ)
    (chain rail : String) (fulfillmentHash : FulfillmentHash)
    (customerId : String) (operatorId paymentId : Nat) : Receipt × Store :=
  let nr : Receipt :=
    { id := s.nextId, watcherId := watcherId, typeId := typeId,
      amount := amount, chain := chain, rail := rail,
      fulfillmentHash := fulfillmentHash, customerId := customerId,
      operatorId := operatorId, paymentId := paymentId }
  (nr, { s with receipts := s.receipts ++ [nr], nextId := s.nextId + 1 })

/-- Modelled from the spec: `store.getReceiptByHash` is not under `src/`.
Spec 4.1 `lookup(hash) -> Receipt | absent`. -/
def getReceiptByHash (s : Store) (h : FulfillmentHash) : Option Receipt :=
  s.receipts.find? (fun r => decide (r.fulfillmentHash = h))

/-- Stats field selector for src/store.js `incrementOperatorStats`. -/
inductive OperatorStatField
  | watchersCreated
  | totalTriggers
deriving DecidableEq, Repr

/-- src/store.js `incrementOperatorStats` (no-op when the operator is absent). -/
def incrementOperatorStats (s : Store) (oid : Nat) (f : OperatorStatField) : Store :=
  let upd : Operator → Operator := fun o =>
    match f with
    | .watchersCreated => { o with statsWatchersCreated := o.statsWatchersCreated + 1 }
    | .totalTriggers => { o with statsTotalTriggers := o.statsTotalTriggers + 1 }
  { s with operators := updateFirst (fun o => o.id == oid) upd s.operators }

/-- Stats field selector for src/store.js `incrementWatcherTypeStats`. -/
inductive WatcherTypeStatField
  | instances
  | triggers
deriving DecidableEq, Repr

/-- src/store.js `incrementWatcherTypeStats` (no-op when the type is absent). -/
def incrementWatcherTypeStats (s : Store) (tid : Nat) (f : WatcherTypeStatField) : Store :=
  let upd : WatcherType → WatcherType := fun t =>
    match f with
    | .instances => { t with statsInstances := t.statsInstances + 1 }
    | .triggers => { t with statsTriggers := t.statsTriggers + 1 }
  { s with types := updateFirst (fun t => t.id == tid) upd s.types }

/-- Validation result, `validate(config) -> \x7bvalid, errors[]\x7d`. -/
structure ValidationResult where
  valid : Bool
  errors : List String
deriving DecidableEq, Repr

/-- A registered executor as the creation handler sees it.  `describe` and
`check` perform external I/O (spec 1 treats evaluators as external
collaborators); the cycle models `check` through `CycleEnv`, so the record
only carries the synchronous optional `validate` capability. -/
structure Executor where
  validate? : Option (Config → ValidationResult)

/-- The executor registry as an association list (src/executors/index.js
keeps a `Map`); passed explicitly per spec 9. -/
abbrev Registry := List (String × Executor)

/-- src/executors/index.js `getExecutor`. -/
def getExecutor (reg : Registry) (eid : String) : Option Executor :=
  (reg.find? (fun p => p.1 == eid)).map (fun p => p.2)

/-- JS `String.prototype.startsWith`, modelled over the character list.
(Lean core `String.startsWith` is byte-position based and not
kernel-reducible; prefix-of-characters is the same check.) -/
def strStartsWith (u p : String) : Bool := p.data.isPrefixOf u.data

/-- JS `a || b` on an optional string (empty string is falsy). -/
def jsStrOr (a : Option String) (b : String) : String :=
  match a with
  | none => b
  | some x => if x = "" then b else x

/-- The creation request body plus the `x-customer-id` header. -/
structure CreateReq where
  typeId : Nat
  config : Config
  webhook : String
  customerId : Option String
  headerCustomerId : Option String
deriving Repr

/-- The watcher object embedded in a creation response: the full
`\x7bid, typeId, status\x7d` view, or `\x7bid\x7d` alone when an idempotent
replay finds the receipt but the watcher record is gone
(src/routes/watchers.js lines 39-43). -/
inductive WatcherView
  | view (id typeId : Nat) (status : WStatus)
  | idOnly (id : Nat)
deriving DecidableEq, Repr

/-- Outcome of the `POST /watchers` handler, one constructor per `res.status`
exit of src/routes/watchers.js lines 20-141. -/
inductive CreateResult
  | idempotentReplay (watcher : WatcherView) (receipt : Receipt)
  | typeNotFound
  | operatorNotFound
  | invalidWebhook
  | invalidConfig (errors : List String)
  | created (watcher : Watcher) (payment : Payment) (receipt : Receipt)
deriving DecidableEq, Repr

/-- The HTTP status each exit of the handler responds with. -/
def httpStatus : CreateResult → Nat
  | .idempotentReplay _ _ => 200
  | .typeNotFound => 404
  | .operatorNotFound => 500
  | .invalidWebhook => 400
  | .invalidConfig _ => 400
  | .created _ _ _ => 201

/-- src/models.js `PLATFORM_FEE = 0.20`. -/
def PLATFORM_FEE : ℚ := 20 / 100

/-- src/models.js `OPERATOR_SHARE = 0.80`. -/
def OPERATOR_SHARE : ℚ := 80 / 100

/-- The `NETWORK` default of src/routes/watchers.js line 90. -/
def NETWORK : String := "eip155:8453"

/-- The customer id the handler resolves (src/routes/watchers.js line 23):
`rawCustomerId || req.headers['x-customer-id'] || 'anonymous'`. -/
def resolvedCustomerId (req : CreateReq) : String :=
  jsStrOr req.customerId (jsStrOr req.headerCustomerId "anonymous")

/-- The fulfillment fingerprint the handler computes for a request
(src/routes/watchers.js lines 26-28). -/
def requestHash (req : CreateReq) : FulfillmentHash :=
  generateFulfillmentHash
    { typeId := req.typeId, config := req.config, webhook := req.webhook,
      customerId := resolvedCustomerId req }

/-- The config-validation step of the handler (src/routes/watchers.js lines
67-78): only runs when the type's `executorId` is truthy, the executor is
registered and it has a `validate` capability; returns the error list when
validation fails. -/
def configValidationErrors (reg : Registry) (ty : WatcherType) (cfg : Config) :
    Option (List String) :=
  match ty.executorId with
  | none => none
  | some eid =>
    if eid = "" then none
    else
      match getExecutor reg eid with
      | none => none
      | some ex =>
        match ex.validate? with
        | none => none
        | some v =>
          if (v cfg).valid then none else some (v cfg).errors

/-- The side-effecting tail of the creation handler (src/routes/watchers.js
lines 81-136): create the Watcher, the Payment with the 80/20 split, the
Receipt carrying the fulfillment hash, and bump both creation stats. -/
def performCreation (now : Nat) (req : CreateReq) (s : Store)
    (ty : WatcherType) : CreateResult × Store :=
  let ws1 := createWatcher s now req.typeId ty.operatorId
    (resolvedCustomerId req) req.config req.webhook
  let ps2 := createPayment ws1.2 now ws1.1.id ty.operatorId ws1.1.customerId
    ty.price (ty.price * OPERATOR_SHARE) (ty.price * PLATFORM_FEE) NETWORK
  let rs3 := createReceipt ps2.2 ws1.1.id ty.id ty.price NETWORK "x402"
    (requestHash req) ws1.1.customerId ty.operatorId ps2.1.id
  let s4 := incrementOperatorStats rs3.2 ty.operatorId .watchersCreated
  let s5 := incrementWatcherTypeStats s4 req.typeId .instances
  (.created ws1.1 ps2.1 rs3.1, s5)

/-- The `POST /watchers` handler (src/routes/watchers.js lines 20-141):
idempotency lookup first, then type, operator, webhook and config
validation, then watcher + payment + receipt creation and stats updates. -/
def postWatchers (reg : Registry) (now : Nat) (req : CreateReq) (s : Store) :
    CreateResult × Store :=
  match getReceiptByHash s (requestHash req) with
  | some existingReceipt =>
    match getWatcher s existingReceipt.watcherId with
    | some ew => (.idempotentReplay (.view ew.id ew.typeId ew.status) existingReceipt, s)
    | none => (.idempotentReplay (.idOnly existingReceipt.watcherId) existingReceipt, s)
  | none =>
    match getWatcherType s req.typeId with
    | none => (.typeNotFound, s)
    | some ty =>
      match getOperator s ty.operatorId with
      | none => (.operatorNotFound, s)
      | some _ =>
        if req.webhook = "" then (.invalidWebhook, s)
        else if !(strStartsWith req.webhook "http") then (.invalidWebhook, s)
        else
          match configValidationErrors reg ty req.config with
          | some errs => (.invalidConfig errs, s)
          | none => performCreation now req s ty

/-- Outcome of one `executor.check(config)` call: the promise either rejects
(network error, API error, timeout) or resolves to `\x7btriggered, data\x7d`. -/
inductive CheckOutcome
  | throws
  | ok (triggered : Bool) (data : CheckData)

/-- Outcome of one webhook `fetch` call: the promise either rejects (network
error) or resolves to a response with some HTTP status — `fetch` resolves on
any status, including 4xx/5xx, and the handler never reads it. -/
inductive FetchResult
  | throws
  | response (status : Nat)

/-- The external environment of one cycle: the clock and, per watcher id,
the outcome of the evaluator call and of the webhook delivery. -/
structure CycleEnv where
  now : Nat
  check : Nat → CheckOutcome
  fetch : Nat → FetchResult

/-- The cycle counters of src/routes/watchers.js line 147. -/
structure Counters where
  checked : Nat
  triggered : Nat
  errors : Nat
  skipped : Nat
deriving DecidableEq, Repr

/-- The zero counters the cycle starts from. -/
def Counters.zero : Counters := { checked := 0, triggered := 0, errors := 0, skipped := 0 }

/-- The update object of the first `store.updateWatcher` call of the cycle
(src/routes/watchers.js lines 174-177). -/
def updChecked (now : Nat) (d : CheckData) (r : Watcher) : Watcher :=
  { r with lastChecked := some now, lastCheckResult := some d }

/-- The update object of the second `store.updateWatcher` call
(src/routes/watchers.js lines 198-201); `tc` is the snapshot's
`watcher.triggerCount`. -/
def updTrig (now : Nat) (tc : Nat) (r : Watcher) : Watcher :=
  { r with lastTriggered := some now, triggerCount := tc + 1 }

/-- The store after a successful delivery for watcher `w`: both watcher
updates, then the operator and watcher-type trigger stats
(src/routes/watchers.js lines 198-203). -/
def commitTrigger (env : CycleEnv) (s : Store) (w : Watcher) (d : CheckData) : Store :=
  incrementWatcherTypeStats
    (incrementOperatorStats
      (updateWatcher (updateWatcher s w.id (updChecked env.now d)) w.id
        (updTrig env.now w.triggerCount))
      w.operatorId .totalTriggers)
    w.typeId .triggers

/-- The per-watcher body of the cron loop (src/routes/watchers.js lines
153-216): resolve type and executor (skip on any gap), count `checked`, run
the check (count `errors` if it throws, leaving the store untouched),
persist `lastChecked` and `lastCheckResult`, and on a trigger deliver the
webhook — on delivery success commit the trigger bookkeeping and count
`triggered`; on delivery failure count `errors`.  Counter updates are
written combined per exit path; they compose exactly as the successive
`++` statements of the loop body. -/
def processWatcher (reg : Registry) (env : CycleEnv)
    (acc : Store × Counters) (w : Watcher) : Store × Counters :=
  match getWatcherType acc.1 w.typeId with
  | none => (acc.1, { acc.2 with skipped := acc.2.skipped + 1 })
  | some ty =>
    match ty.executorId with
    | none => (acc.1, { acc.2 with skipped := acc.2.skipped + 1 })
    | some eid =>
      if eid = "" then (acc.1, { acc.2 with skipped := acc.2.skipped + 1 })
      else
        match getExecutor reg eid with
        | none => (acc.1, { acc.2 with skipped := acc.2.skipped + 1 })
        | some _ =>
          match env.check w.id with
          | .throws =>
            (acc.1, { acc.2 with checked := acc.2.checked + 1,
                                 errors := acc.2.errors + 1 })
          | .ok triggered data =>
            if triggered then
              match env.fetch w.id with
              | .throws =>
                (updateWatcher acc.1 w.id (updChecked env.now data),
                 { acc.2 with checked := acc.2.checked + 1,
                              errors := acc.2.errors + 1 })
              | .response _ =>
                (commitTrigger env acc.1 w data,
                 { acc.2 with checked := acc.2.checked + 1,
                              triggered := acc.2.triggered + 1 })
            else
              (updateWatcher acc.1 w.id (updChecked env.now data),
               { acc.2 with checked := acc.2.checked + 1 })

/-- The active-watcher snapshot the cycle iterates over
(`store.getWatchers(\x7bstatus: 'active'\x7d)`). -/
def activeList (s : Store) : List Watcher :=
  s.watchers.filter (fun w => decide (w.status = WStatus.active))

/-- The `POST /cron/check` handler (src/routes/watchers.js lines 146-228):
fold the per-watcher body over the active snapshot, starting from zero
counters. -/
def runCycle (reg : Registry) (env : CycleEnv) (s : Store) : Store × Counters :=
  (activeList s).foldl (processWatcher reg env) (s, Counters.zero)

/-! ## Observers used to state the properties -/

/-- The ids of the stored watchers, in order. -/
def watcherIds (s : Store) : List Nat := s.watchers.map (fun w => w.id)

/-- The `(id, executorId)` signature of the stored types: the part of the
types list that executor resolution depends on. -/
def typesSig (s : Store) : List (Nat × Option String) :=
  s.types.map (fun t => (t.id, t.executorId))

/-- The ids of the stored operators, in order. -/
def operatorIds (s : Store) : List Nat := s.operators.map (fun o => o.id)

/-- The executorId of the type a watcher-type id resolves to, when it does. -/
def execIdOf (s : Store) (tid : Nat) : Option (Option String) :=
  (getWatcherType s tid).map (fun t => t.executorId)

/-- The stored trigger count under a watcher id (0 when absent). -/
def tcOf (s : Store) (i : Nat) : Nat :=
  match getWatcher s i with
  | some w => w.triggerCount
  | none => 0

/-- The stored `totalTriggers` stat under an operator id (0 when absent). -/
def opTT (s : Store) (oid : Nat) : Nat :=
  match getOperator s oid with
  | some o => o.statsTotalTriggers
  | none => 0

/-- The stored `triggers` stat under a watcher-type id (0 when absent). -/
def wtTriggers (s : Store) (tid : Nat) : Nat :=
  match getWatcherType s tid with
  | some t => t.statsTriggers
  | none => 0

/-- A watcher resolves to a registered executor in a store: its type exists,
the type's `executorId` is present, non-empty (JS truthiness) and registered. -/
def resolvesExec (reg : Registry) (s : Store) (w : Watcher) : Prop :=
  ∃ eid, execIdOf s w.typeId = some (some eid) ∧ eid ≠ "" ∧
    (getExecutor reg eid).isSome = true

/-- Modelled from the spec: a "well-formed HTTP(S) URL" — an `http://` or
`https://` scheme followed by a non-empty remainder.  This is the (generous)
specification-side notion that the code's check is compared against. -/
def isWellFormedHttpUrl (u : String) : Bool :=
  (strStartsWith u "http://" && decide (7 < u.length)) ||
  (strStartsWith u "https://" && decide (8 < u.length))

/-- Whether a creation outcome is a fresh creation (HTTP 201). -/
def isCreated : CreateResult → Bool
  | .created _ _ _ => true
  | _ => false

/-- Whether a creation outcome is an idempotent replay (HTTP 200). -/
def isIdempotentReplay : CreateResult → Bool
  | .idempotentReplay _ _ => true
  | _ => false

/-- The id carried by a creation-response watcher view. -/
def WatcherView.viewId : WatcherView → Nat
  | .view i _ _ => i
  | .idOnly i => i

/-- The watcher id a creation outcome reports, when it reports one. -/
def resultWatcherId? : CreateResult → Option Nat
  | .idempotentReplay v _ => some v.viewId
  | .created w _ _ => some w.id
  | _ => none

/-- The receipt a creation outcome carries, when it carries one. -/
def resultReceipt? : CreateResult → Option Receipt
  | .idempotentReplay _ r => some r
  | .created _ _ r => some r
  | _ => none

/-- The payment a creation outcome carries, when it carries one. -/
def resultPayment? : CreateResult → Option Payment
  | .created _ p _ => some p
  | _ => none

/-! ## Concrete fixtures used by the witnesses and counterexamples -/

/-- A demo operator. -/
def opA : Operator := { id := 1, statsWatchersCreated := 0, statsTotalTriggers := 0 }

/-- A demo watcher type priced 10, using executor id "exec". -/
def tyA : WatcherType :=
  { id := 2, operatorId := 1, executorId := some "exec", price := 10,
    statsInstances := 0, statsTriggers := 0 }

/-- A demo executor with no `validate` capability. -/
def execA : Executor := { validate? := none }

/-- A demo registry registering only "exec". -/
def regA : Registry := [("exec", execA)]

/-- A demo active watcher of type `tyA`. -/
def wA : Watcher :=
  { id := 5, typeId := 2, operatorId := 1, customerId := "cust",
    config := "cfg", webhook := "http://example.com/hook", status := .active,
    createdAt := 0, lastChecked := none, lastCheckResult := none,
    lastTriggered := none, triggerCount := 0 }

/-- A demo store holding `opA`, `tyA` and the single active watcher `wA`. -/
def sA : Store :=
  { operators := [opA], types := [tyA], watchers := [wA], payments := [],
    receipts := [], nextId := 100 }

/-- A demo store with no watchers, for the creation-path witnesses. -/
def sB : Store :=
  { operators := [opA], types := [tyA], watchers := [], payments := [],
    receipts := [], nextId := 100 }

/-- A demo creation request against `tyA`. -/
def reqB : CreateReq :=
  { typeId := 2, config := "cfg", webhook := "http://example.com/hook",
    customerId := some "cust", headerCustomerId := none }

/-! ## List-level lemmas about `updateFirst` and keyed `find?` -/

/-- `updateFirst` preserves length. -/
theorem length_updateFirst (p : α → Bool) (f : α → α) (l : List α) :
    (updateFirst p f l).length = l.length := by
  induction l with
  | nil => rfl
  | cons x xs ih =>
    simp only [updateFirst]
    split <;> simp [ih]

/-- `updateFirst` preserves any projection the update function preserves. -/
theorem map_updateFirst (g : α → β) (p : α → Bool) (f : α → α)
    (h : ∀ a, g (f a) = g a) (l : List α) :
    (updateFirst p f l).map g = l.map g := by
  induction l with
  | nil => rfl
  | cons x xs ih =>
    simp only [updateFirst]
    split <;> simp [ih, h]

/-- Every element of `updateFirst p f l` is an element of `l` or the image
under `f` of one. -/
theorem mem_updateFirst {a : α} (p : α → Bool) (f : α → α) (l : List α)
    (h : a ∈ updateFirst p f l) : a ∈ l ∨ ∃ b, b ∈ l ∧ a = f b := by
  induction l with
  | nil => simp [updateFirst] at h
  | cons x xs ih =>
    simp only [updateFirst] at h
    split at h
    · rcases List.mem_cons.1 h with h1 | h1
      · exact Or.inr ⟨x, List.mem_cons_self x xs, h1⟩
      · exact Or.inl (List.mem_cons_of_mem _ h1)
    · rcases List.mem_cons.1 h with h1 | h1
      · exact Or.inl (by simp [h1])
      · rcases ih h1 with h2 | ⟨b, hb, hab⟩
        · exact Or.inl (List.mem_cons_of_mem _ h2)
        · exact Or.inr ⟨b, List.mem_cons_of_mem _ hb, hab⟩

/-- Updating a key the list does not contain leaves it unchanged. -/
theorem updateFirst_of_find?_none (p : α → Bool) (f : α → α) (l : List α)
    (h : l.find? p = none) : updateFirst p f l = l := by
  induction l with
  | nil => rfl
  | cons x xs ih =>
    cases hx : p x with
    | true => simp [List.find?_cons, hx] at h
    | false =>
      simp only [List.find?_cons, hx] at h
      simp [updateFirst, hx, ih h]

/-- Searching one key after updating a different key finds the same record. -/
theorem find?_key_updateFirst_ne (key : α → Nat) (f : α → α)
    (hf : ∀ a, key (f a) = key a) (i j : Nat) (hij : i ≠ j) (l : List α) :
    (updateFirst (fun a => key a == j) f l).find? (fun a => key a == i) =
      l.find? (fun a => key a == i) := by
  induction l with
  | nil => rfl
  | cons x xs ih =>
    simp only [updateFirst]
    split
    · next hx =>
      have hkx : key x = j := by simpa using hx
      have h1 : (key (f x) == i) = false := by
        simp [hf, hkx]
        omega
      have h2 : (key x == i) = false := by
        simp [hkx]
        omega
      simp [List.find?_cons, h1, h2]
    · next hx =>
      cases hpx : (key x == i) <;> simp [List.find?_cons, hpx, ih]

/-- Searching the updated key finds the image of the record found before. -/
theorem find?_updateFirst_self (key : α → Nat) (f : α → α)
    (hf : ∀ a, key (f a) = key a) (i : Nat) (l : List α) :
    (updateFirst (fun a => key a == i) f l).find? (fun a => key a == i) =
      (l.find? (fun a => key a == i)).map f := by
  induction l with
  | nil => rfl
  | cons x xs ih =>
    simp only [updateFirst]
    split
    · next hx =>
      have h1 : (key (f x) == i) = true := by
        have hkx : key x = i := by simpa using hx
        simp [hf, hkx]
      simp [List.find?_cons, h1, hx]
    · next hx =>
      have h2 : (key x == i) = false := by
        cases h : (key x == i) with
        | true => exact absurd h hx
        | false => rfl
      simp [List.find?_cons, h2, ih]

/-- In a list with pairwise-distinct keys, searching a member's key finds
exactly that member. -/
theorem find?_key_of_mem_nodup (key : α → Nat) {l : List α} {a : α}
    (hnd : (l.map key).Nodup) (ha : a ∈ l) :
    l.find? (fun x => key x == key a) = some a := by
  induction l with
  | nil => cases ha
  | cons x xs ih =>
    rw [List.map_cons, List.nodup_cons] at hnd
    rcases List.mem_cons.1 ha with rfl | ha2
    · simp [List.find?_cons]
    · have hne : (key x == key a) = false := by
        simp only [beq_eq_false_iff_ne, ne_eq]
        intro h
        exact hnd.1 (h ▸ List.mem_map_of_mem key ha2)
      simp [List.find?_cons, hne, ih hnd.2 ha2]

/-- Keyed `find?` succeeds exactly when the key occurs. -/
theorem isSome_find?_key (key : α → Nat) (i : Nat) (l : List α) :
    (l.find? (fun a => key a == i)).isSome = true ↔ i ∈ l.map key := by
  induction l with
  | nil => simp
  | cons x xs ih =>
    cases hx : (key x == i) with
    | true =>
      have : key x = i := by simpa using hx
      simp [List.find?_cons, hx, this]
    | false =>
      have : ¬ key x = i := by simpa using hx
      simp [List.find?_cons, hx, ih]
      intro h
      omega

/-- `find?` over an append, when the first part fails. -/
theorem find?_append_of_none (p : α → Bool) (l₁ l₂ : List α)
    (h : l₁.find? p = none) : (l₁ ++ l₂).find? p = l₂.find? p := by
  induction l₁ with
  | nil => rfl
  | cons x xs ih =>
    cases hx : p x with
    | true => simp [List.find?_cons, hx] at h
    | false =>
      simp only [List.find?_cons, hx] at h
      simp [List.find?_cons, hx, ih h]

/-- `find?` over an append, when the first part succeeds. -/
theorem find?_append_of_some (p : α → Bool) (l₁ l₂ : List α) {a : α}
    (h : l₁.find? p = some a) : (l₁ ++ l₂).find? p = some a := by
  induction l₁ with
  | nil => simp at h
  | cons x xs ih =>
    cases hx : p x with
    | true =>
      simp only [List.find?_cons, hx] at h
      simp [List.find?_cons, hx, h]
    | false =>
      simp only [List.find?_cons, hx] at h
      simp [List.find?_cons, hx, ih h]

/-! ## Store-level frame lemmas -/

/-- `updChecked` never changes the record id. -/
theorem updChecked_id (now : Nat) (d : CheckData) (r : Watcher) :
    (updChecked now d r).id = r.id := rfl

/-- `updTrig` never changes the record id. -/
theorem updTrig_id (now tc : Nat) (r : Watcher) : (updTrig now tc r).id = r.id := rfl

/-- `updateWatcher` keeps the watcher id sequence when the update keeps ids. -/
theorem watcherIds_updateWatcher (s : Store) (i : Nat) (f : Watcher → Watcher)
    (hf : ∀ r, (f r).id = r.id) :
    watcherIds (updateWatcher s i f) = watcherIds s :=
  map_updateFirst _ _ f hf s.watchers

/-- Operator-stat bumps keep the watcher list. -/
theorem watchers_incrementOperatorStats (s : Store) (oid : Nat) (f : OperatorStatField) :
    (incrementOperatorStats s oid f).watchers = s.watchers := rfl

/-- Type-stat bumps keep the watcher list. -/
theorem watchers_incrementWatcherTypeStats (s : Store) (tid : Nat) (f : WatcherTypeStatField) :
    (incrementWatcherTypeStats s tid f).watchers = s.watchers := rfl

/-- `commitTrigger` keeps the watcher id sequence. -/
theorem watcherIds_commitTrigger (env : CycleEnv) (s : Store) (w : Watcher) (d : CheckData) :
    watcherIds (commitTrigger env s w d) = watcherIds s := by
  have h1 : watcherIds (commitTrigger env s w d) =
      watcherIds (updateWatcher (updateWatcher s w.id (updChecked env.now d))
        w.id (updTrig env.now w.triggerCount)) := rfl
  rw [h1, watcherIds_updateWatcher _ _ _ (updTrig_id env.now w.triggerCount),
    watcherIds_updateWatcher _ _ _ (updChecked_id env.now d)]

/-- `updateWatcher` keeps the types list. -/
theorem typesSig_updateWatcher (s : Store) (i : Nat) (f : Watcher → Watcher) :
    typesSig (updateWatcher s i f) = typesSig s := rfl

/-- Operator-stat bumps keep the types list. -/
theorem typesSig_incrementOperatorStats (s : Store) (oid : Nat) (f : OperatorStatField) :
    typesSig (incrementOperatorStats s oid f) = typesSig s := rfl

/-- Type-stat bumps keep the `(id, executorId)` signature of the types. -/
theorem typesSig_incrementWatcherTypeStats (s : Store) (tid : Nat) (f : WatcherTypeStatField) :
    typesSig (incrementWatcherTypeStats s tid f) = typesSig s := by
  unfold typesSig incrementWatcherTypeStats
  apply map_updateFirst
  intro t
  cases f <;> rfl

/-- `commitTrigger` keeps the `(id, executorId)` signature of the types. -/
theorem typesSig_commitTrigger (env : CycleEnv) (s : Store) (w : Watcher) (d : CheckData) :
    typesSig (commitTrigger env s w d) = typesSig s := by
  unfold commitTrigger
  rw [typesSig_incrementWatcherTypeStats, typesSig_incrementOperatorStats,
    typesSig_updateWatcher, typesSig_updateWatcher]

/-- `updateWatcher` keeps the operators list. -/
theorem operatorIds_updateWatcher (s : Store) (i : Nat) (f : Watcher → Watcher) :
    operatorIds (updateWatcher s i f) = operatorIds s := rfl

/-- Operator-stat bumps keep the operator id sequence. -/
theorem operatorIds_incrementOperatorStats (s : Store) (oid : Nat) (f : OperatorStatField) :
    operatorIds (incrementOperatorStats s oid f) = operatorIds s := by
  unfold operatorIds incrementOperatorStats
  apply map_updateFirst
  intro o
  cases f <;> rfl

/-- `commitTrigger` keeps the operator id sequence. -/
theorem operatorIds_commitTrigger (env : CycleEnv) (s : Store) (w : Watcher) (d : CheckData) :
    operatorIds (commitTrigger env s w d) = operatorIds s := by
  have h1 : operatorIds (commitTrigger env s w d) =
      operatorIds (incrementOperatorStats
        (updateWatcher (updateWatcher s w.id (updChecked env.now d)) w.id
          (updTrig env.now w.triggerCount)) w.operatorId .totalTriggers) := rfl
  rw [h1, operatorIds_incrementOperatorStats, operatorIds_updateWatcher,
    operatorIds_updateWatcher]

/-- Looking up a different watcher id after `updateWatcher`. -/
theorem getWatcher_updateWatcher_ne (s : Store) (i j : Nat) (f : Watcher → Watcher)
    (hf : ∀ r, (f r).id = r.id) (hne : i ≠ j) :
    getWatcher (updateWatcher s j f) i = getWatcher s i :=
  find?_key_updateFirst_ne Watcher.id f hf i j hne s.watchers

/-- Looking up the updated watcher id after `updateWatcher`. -/
theorem getWatcher_updateWatcher_self (s : Store) (i : Nat) (f : Watcher → Watcher)
    (hf : ∀ r, (f r).id = r.id) :
    getWatcher (updateWatcher s i f) i = (getWatcher s i).map f :=
  find?_updateFirst_self Watcher.id f hf i s.watchers

/-- Stat bumps never change any watcher lookup. -/
theorem getWatcher_incrementOperatorStats (s : Store) (oid : Nat)
    (f : OperatorStatField) (i : Nat) :
    getWatcher (incrementOperatorStats s oid f) i = getWatcher s i := rfl

/-- Stat bumps never change any watcher lookup. -/
theorem getWatcher_incrementWatcherTypeStats (s : Store) (tid : Nat)
    (f : WatcherTypeStatField) (i : Nat) :
    getWatcher (incrementWatcherTypeStats s tid f) i = getWatcher s i := rfl

/-- Looking up a non-delivered watcher id after `commitTrigger`. -/
theorem getWatcher_commitTrigger_ne (env : CycleEnv) (s : Store) (w : Watcher)
    (d : CheckData) (i : Nat) (hne : i ≠ w.id) :
    getWatcher (commitTrigger env s w d) i = getWatcher s i := by
  unfold commitTrigger
  rw [getWatcher_incrementWatcherTypeStats, getWatcher_incrementOperatorStats,
    getWatcher_updateWatcher_ne _ _ _ _ (updTrig_id env.now w.triggerCount) hne,
    getWatcher_updateWatcher_ne _ _ _ _ (updChecked_id env.now d) hne]

/-- Looking up the delivered watcher id after `commitTrigger`. -/
theorem getWatcher_commitTrigger_self (env : CycleEnv) (s : Store) (w : Watcher)
    (d : CheckData) :
    getWatcher (commitTrigger env s w d) w.id =
      ((getWatcher s w.id).map (updChecked env.now d)).map
        (updTrig env.now w.triggerCount) := by
  unfold commitTrigger
  rw [getWatcher_incrementWatcherTypeStats, getWatcher_incrementOperatorStats,
    getWatcher_updateWatcher_self _ _ _ (updTrig_id env.now w.triggerCount),
    getWatcher_updateWatcher_self _ _ _ (updChecked_id env.now d)]

/-- `totalTriggers` observer is untouched by watcher updates. -/
theorem opTT_updateWatcher (s : Store) (i : Nat) (f : Watcher → Watcher) (oid : Nat) :
    opTT (updateWatcher s i f) oid = opTT s oid := rfl

/-- `totalTriggers` observer is untouched by type-stat bumps. -/
theorem opTT_incrementWatcherTypeStats (s : Store) (tid : Nat)
    (f : WatcherTypeStatField) (oid : Nat) :
    opTT (incrementWatcherTypeStats s tid f) oid = opTT s oid := rfl

/-- An operator-stat bump never decreases any `totalTriggers` observer. -/
theorem opTT_incrementOperatorStats_ge (s : Store) (oid' : Nat)
    (f : OperatorStatField) (oid : Nat) :
    opTT s oid ≤ opTT (incrementOperatorStats s oid' f) oid := by
  unfold opTT getOperator incrementOperatorStats
  by_cases h : oid = oid'
  · subst h
    rw [find?_updateFirst_self Operator.id _ (by intro o; cases f <;> rfl) oid s.operators]
    cases hfo : s.operators.find? (fun o => o.id == oid) with
    | none => simp
    | some o => cases f <;> simp
  · rw [find?_key_updateFirst_ne Operator.id _ (by intro o; cases f <;> rfl) oid oid' h s.operators]

/-- Bumping `totalTriggers` of a present operator increments the observer. -/
theorem opTT_incrementOperatorStats_eq (s : Store) (oid : Nat)
    (h : (getOperator s oid).isSome = true) :
    opTT (incrementOperatorStats s oid .totalTriggers) oid = opTT s oid + 1 := by
  unfold opTT getOperator incrementOperatorStats
  rw [find?_updateFirst_self Operator.id _ (by intro o; rfl) oid s.operators]
  unfold getOperator at h
  cases hfo : s.operators.find? (fun o => o.id == oid) with
  | none => rw [hfo] at h; simp at h
  | some o => simp

/-- `triggers` observer is untouched by watcher updates. -/
theorem wtTriggers_updateWatcher (s : Store) (i : Nat) (f : Watcher → Watcher) (tid : Nat) :
    wtTriggers (updateWatcher s i f) tid = wtTriggers s tid := rfl

/-- `triggers` observer is untouched by operator-stat bumps. -/
theorem wtTriggers_incrementOperatorStats (s : Store) (oid : Nat)
    (f : OperatorStatField) (tid : Nat) :
    wtTriggers (incrementOperatorStats s oid f) tid = wtTriggers s tid := rfl

/-- A type-stat bump never decreases any `triggers` observer. -/
theorem wtTriggers_incrementWatcherTypeStats_ge (s : Store) (tid' : Nat)
    (f : WatcherTypeStatField) (tid : Nat) :
    wtTriggers s tid ≤ wtTriggers (incrementWatcherTypeStats s tid' f) tid := by
  unfold wtTriggers getWatcherType incrementWatcherTypeStats
  by_cases h : tid = tid'
  · subst h
    rw [find?_updateFirst_self WatcherType.id _ (by intro t; cases f <;> rfl) tid s.types]
    cases hft : s.types.find? (fun t => t.id == tid) with
    | none => simp
    | some t => cases f <;> simp
  · rw [find?_key_updateFirst_ne WatcherType.id _ (by intro t; cases f <;> rfl) tid tid' h s.types]

/-- Bumping `triggers` of a present type increments the observer. -/
theorem wtTriggers_incrementWatcherTypeStats_eq (s : Store) (tid : Nat)
    (h : (getWatcherType s tid).isSome = true) :
    wtTriggers (incrementWatcherTypeStats s tid .triggers) tid = wtTriggers s tid + 1 := by
  unfold wtTriggers getWatcherType incrementWatcherTypeStats
  rw [find?_updateFirst_self WatcherType.id _ (by intro t; rfl) tid s.types]
  unfold getWatcherType at h
  cases hft : s.types.find? (fun t => t.id == tid) with
  | none => rw [hft] at h; simp at h
  | some t => simp

/-- Type resolution (with the executorId signature) is determined by `typesSig`. -/
theorem execIdOf_congr (s s' : Store) (h : typesSig s' = typesSig s) (tid : Nat) :
    execIdOf s' tid = execIdOf s tid := by
  unfold execIdOf getWatcherType
  unfold typesSig at h
  have key : ∀ (l l' : List WatcherType),
      l'.map (fun t => (t.id, t.executorId)) = l.map (fun t => (t.id, t.executorId)) →
      (l'.find? (fun t => t.id == tid)).map (fun t => t.executorId) =
        (l.find? (fun t => t.id == tid)).map (fun t => t.executorId) := by
    intro l
    induction l with
    | nil =>
      intro l' h'
      have : l' = [] := by
        cases l' with
        | nil => rfl
        | cons y ys => simp at h'
      rw [this]
    | cons x xs ih =>
      intro l' h'
      cases l' with
      | nil => simp at h'
      | cons y ys =>
        simp only [List.map_cons, List.cons.injEq, Prod.mk.injEq] at h'
        obtain ⟨⟨hid, hex⟩, hmap⟩ := h'
        rw [List.find?_cons, List.find?_cons, hid]
        cases hyx : (x.id == tid) with
        | true => simp [hex]
        | false => simpa using ih ys hmap
  exact key s.types s'.types h

/-- `resolvesExec` only depends on the types signature. -/
theorem resolvesExec_congr (reg : Registry) (s s' : Store) (w : Watcher)
    (h : typesSig s' = typesSig s) :
    resolvesExec reg s w → resolvesExec reg s' w := by
  rintro ⟨eid, h1, h2, h3⟩
  exact ⟨eid, (execIdOf_congr s s' h w.typeId).trans h1, h2, h3⟩

/-! ## Per-step characterization of the cycle body -/

/-- Every exit of the loop body is one of: skip, check-throw, delivery
failure, no-trigger commit, or full trigger commit. -/
theorem processWatcher_cases (reg : Registry) (env : CycleEnv) (s : Store)
    (c : Counters) (w : Watcher) :
    (processWatcher reg env (s, c) w = (s, { c with skipped := c.skipped + 1 })) ∨
    (processWatcher reg env (s, c) w =
      (s, { c with checked := c.checked + 1, errors := c.errors + 1 })) ∨
    (∃ d, processWatcher reg env (s, c) w =
      (updateWatcher s w.id (updChecked env.now d),
       { c with checked := c.checked + 1, errors := c.errors + 1 })) ∨
    (∃ d, processWatcher reg env (s, c) w =
      (updateWatcher s w.id (updChecked env.now d),
       { c with checked := c.checked + 1 })) ∨
    (∃ d, processWatcher reg env (s, c) w =
      (commitTrigger env s w d,
       { c with checked := c.checked + 1, triggered := c.triggered + 1 })) := by
  unfold processWatcher
  split
  · exact Or.inl rfl
  · split
    · exact Or.inl rfl
    · split
      · exact Or.inl rfl
      · split
        · exact Or.inl rfl
        · split
          · exact Or.inr (Or.inl rfl)
          · next trig d hck =>
            split
            · split
              · exact Or.inr (Or.inr (Or.inl ⟨d, rfl⟩))
              · exact Or.inr (Or.inr (Or.inr (Or.inr ⟨d, rfl⟩)))
            · exact Or.inr (Or.inr (Or.inr (Or.inl ⟨d, rfl⟩)))

/-- The loop body keeps the watcher id sequence. -/
theorem processWatcher_watcherIds (reg : Registry) (env : CycleEnv) (s : Store)
    (c : Counters) (w : Watcher) :
    watcherIds (processWatcher reg env (s, c) w).1 = watcherIds s := by
  rcases processWatcher_cases reg env s c w with h | h | ⟨d, h⟩ | ⟨d, h⟩ | ⟨d, h⟩ <;>
    rw [h] <;>
    first
    | rfl
    | exact watcherIds_updateWatcher s w.id _ (updChecked_id env.now d)
    | exact watcherIds_commitTrigger env s w d

/-- The loop body keeps the types signature. -/
theorem processWatcher_typesSig (reg : Registry) (env : CycleEnv) (s : Store)
    (c : Counters) (w : Watcher) :
    typesSig (processWatcher reg env (s, c) w).1 = typesSig s := by
  rcases processWatcher_cases reg env s c w with h | h | ⟨d, h⟩ | ⟨d, h⟩ | ⟨d, h⟩ <;>
    rw [h] <;>
    first
    | rfl
    | exact typesSig_commitTrigger env s w d

/-- The loop body keeps the operator id sequence. -/
theorem processWatcher_operatorIds (reg : Registry) (env : CycleEnv) (s : Store)
    (c : Counters) (w : Watcher) :
    operatorIds (processWatcher reg env (s, c) w).1 = operatorIds s := by
  rcases processWatcher_cases reg env s c w with h | h | ⟨d, h⟩ | ⟨d, h⟩ | ⟨d, h⟩ <;>
    rw [h] <;>
    first
    | rfl
    | exact operatorIds_commitTrigger env s w d

/-- The loop body never touches the record of a different watcher id. -/
theorem processWatcher_getWatcher_ne (reg : Registry) (env : CycleEnv) (s : Store)
    (c : Counters) (w : Watcher) (i : Nat) (hne : i ≠ w.id) :
    getWatcher (processWatcher reg env (s, c) w).1 i = getWatcher s i := by
  rcases processWatcher_cases reg env s c w with h | h | ⟨d, h⟩ | ⟨d, h⟩ | ⟨d, h⟩ <;>
    rw [h] <;>
    first
    | rfl
    | exact getWatcher_updateWatcher_ne s i w.id _ (updChecked_id env.now d) hne
    | exact getWatcher_commitTrigger_ne env s w d i hne

/-- `commitTrigger` never decreases any operator `totalTriggers` observer. -/
theorem opTT_commitTrigger_ge (env : CycleEnv) (s : Store) (w : Watcher)
    (d : CheckData) (oid : Nat) :
    opTT s oid ≤ opTT (commitTrigger env s w d) oid := by
  have h1 : opTT (commitTrigger env s w d) oid =
      opTT (incrementOperatorStats
        (updateWatcher (updateWatcher s w.id (updChecked env.now d)) w.id
          (updTrig env.now w.triggerCount)) w.operatorId .totalTriggers) oid := rfl
  have h2 : opTT s oid =
      opTT (updateWatcher (updateWatcher s w.id (updChecked env.now d)) w.id
        (updTrig env.now w.triggerCount)) oid := rfl
  rw [h1, h2]
  exact opTT_incrementOperatorStats_ge _ w.operatorId _ oid

/-- `commitTrigger` never decreases any watcher-type `triggers` observer. -/
theorem wtTriggers_commitTrigger_ge (env : CycleEnv) (s : Store) (w : Watcher)
    (d : CheckData) (tid : Nat) :
    wtTriggers s tid ≤ wtTriggers (commitTrigger env s w d) tid := by
  have h1 : wtTriggers s tid =
      wtTriggers (incrementOperatorStats
        (updateWatcher (updateWatcher s w.id (updChecked env.now d)) w.id
          (updTrig env.now w.triggerCount)) w.operatorId .totalTriggers) tid := rfl
  rw [h1]
  exact wtTriggers_incrementWatcherTypeStats_ge _ w.typeId _ tid

/-- The loop body never decreases any operator `totalTriggers` observer. -/
theorem processWatcher_opTT_ge (reg : Registry) (env : CycleEnv) (s : Store)
    (c : Counters) (w : Watcher) (oid : Nat) :
    opTT s oid ≤ opTT (processWatcher reg env (s, c) w).1 oid := by
  rcases processWatcher_cases reg env s c w with h | h | ⟨d, h⟩ | ⟨d, h⟩ | ⟨d, h⟩ <;>
    rw [h] <;>
    first
    | exact Nat.le_refl _
    | exact opTT_commitTrigger_ge env s w d oid

/-- The loop body never decreases any watcher-type `triggers` observer. -/
theorem processWatcher_wtTriggers_ge (reg : Registry) (env : CycleEnv) (s : Store)
    (c : Counters) (w : Watcher) (tid : Nat) :
    wtTriggers s tid ≤ wtTriggers (processWatcher reg env (s, c) w).1 tid := by
  rcases processWatcher_cases reg env s c w with h | h | ⟨d, h⟩ | ⟨d, h⟩ | ⟨d, h⟩ <;>
    rw [h] <;>
    first
    | exact Nat.le_refl _
    | exact wtTriggers_commitTrigger_ge env s w d tid

/-- Componentwise order on cycle counters. -/
def countersLe (c c' : Counters) : Prop :=
  c.checked ≤ c'.checked ∧ c.triggered ≤ c'.triggered ∧
  c.errors ≤ c'.errors ∧ c.skipped ≤ c'.skipped

/-- `countersLe` is reflexive. -/
theorem countersLe_refl (c : Counters) : countersLe c c :=
  ⟨Nat.le_refl _, Nat.le_refl _, Nat.le_refl _, Nat.le_refl _⟩

/-- `countersLe` is transitive. -/
theorem countersLe_trans {a b c : Counters} (h1 : countersLe a b)
    (h2 : countersLe b c) : countersLe a c :=
  ⟨Nat.le_trans h1.1 h2.1, Nat.le_trans h1.2.1 h2.2.1,
   Nat.le_trans h1.2.2.1 h2.2.2.1, Nat.le_trans h1.2.2.2 h2.2.2.2⟩

/-- The loop body only increments counters. -/
theorem processWatcher_countersLe (reg : Registry) (env : CycleEnv) (s : Store)
    (c : Counters) (w : Watcher) :
    countersLe c (processWatcher reg env (s, c) w).2 := by
  rcases processWatcher_cases reg env s c w with h | h | ⟨d, h⟩ | ⟨d, h⟩ | ⟨d, h⟩ <;>
    rw [h] <;> exact ⟨by simp, by simp, by simp, by simp⟩

/-- Each loop-body exit adds exactly one to `checked + skipped`. -/
theorem processWatcher_checked_skipped (reg : Registry) (env : CycleEnv)
    (s : Store) (c : Counters) (w : Watcher) :
    (processWatcher reg env (s, c) w).2.checked +
      (processWatcher reg env (s, c) w).2.skipped = c.checked + c.skipped + 1 := by
  rcases processWatcher_cases reg env s c w with h | h | ⟨d, h⟩ | ⟨d, h⟩ | ⟨d, h⟩ <;>
    rw [h] <;> dsimp only <;> omega

/-- Each loop-body exit adds at least as much to `checked` as it adds to
`errors + triggered`. -/
theorem processWatcher_errors_triggered (reg : Registry) (env : CycleEnv)
    (s : Store) (c : Counters) (w : Watcher) :
    (processWatcher reg env (s, c) w).2.errors +
      (processWatcher reg env (s, c) w).2.triggered + c.checked ≤
    c.errors + c.triggered + (processWatcher reg env (s, c) w).2.checked := by
  rcases processWatcher_cases reg env s c w with h | h | ⟨d, h⟩ | ⟨d, h⟩ | ⟨d, h⟩ <;>
    rw [h] <;> dsimp only <;> omega

/-! ## Fold-level invariants of the cycle -/

/-- Folding the loop body preserves the id sequences and signatures, and
only increments the stats observers and counters. -/
theorem foldl_pw_invariants (reg : Registry) (env : CycleEnv) (l : List Watcher) :
    ∀ sc : Store × Counters,
      watcherIds (l.foldl (processWatcher reg env) sc).1 = watcherIds sc.1 ∧
      typesSig (l.foldl (processWatcher reg env) sc).1 = typesSig sc.1 ∧
      operatorIds (l.foldl (processWatcher reg env) sc).1 = operatorIds sc.1 ∧
      (∀ oid, opTT sc.1 oid ≤ opTT (l.foldl (processWatcher reg env) sc).1 oid) ∧
      (∀ tid, wtTriggers sc.1 tid ≤
        wtTriggers (l.foldl (processWatcher reg env) sc).1 tid) ∧
      countersLe sc.2 (l.foldl (processWatcher reg env) sc).2 := by
  induction l with
  | nil =>
    intro sc
    exact ⟨rfl, rfl, rfl, fun _ => Nat.le_refl _, fun _ => Nat.le_refl _,
      countersLe_refl _⟩
  | cons x xs ih =>
    rintro ⟨s, c⟩
    rw [List.foldl_cons]
    obtain ⟨h1, h2, h3, h4, h5, h6⟩ := ih (processWatcher reg env (s, c) x)
    refine ⟨?_, ?_, ?_, ?_, ?_, ?_⟩
    · rw [h1]; exact processWatcher_watcherIds reg env s c x
    · rw [h2]; exact processWatcher_typesSig reg env s c x
    · rw [h3]; exact processWatcher_operatorIds reg env s c x
    · intro oid
      exact Nat.le_trans (processWatcher_opTT_ge reg env s c x oid) (h4 oid)
    · intro tid
      exact Nat.le_trans (processWatcher_wtTriggers_ge reg env s c x tid) (h5 tid)
    · exact countersLe_trans (processWatcher_countersLe reg env s c x) h6

/-- Folding over watchers of other ids never changes a watcher lookup. -/
theorem foldl_pw_frame (reg : Registry) (env : CycleEnv) (l : List Watcher)
    (i : Nat) (hl : ∀ x ∈ l, x.id ≠ i) :
    ∀ sc : Store × Counters,
      getWatcher (l.foldl (processWatcher reg env) sc).1 i = getWatcher sc.1 i := by
  induction l with
  | nil => intro sc; rfl
  | cons x xs ih =>
    rintro ⟨s, c⟩
    rw [List.foldl_cons]
    have hx : x.id ≠ i := hl x (List.mem_cons_self x xs)
    rw [ih (fun y hy => hl y (List.mem_cons_of_mem x hy)) (processWatcher reg env (s, c) x)]
    exact processWatcher_getWatcher_ne reg env s c x i (fun h => hx h.symm)

/-- Folding the loop body over `n` watchers adds exactly `n` to
`checked + skipped`. -/
theorem foldl_pw_checked_skipped (reg : Registry) (env : CycleEnv) (l : List Watcher) :
    ∀ sc : Store × Counters,
      (l.foldl (processWatcher reg env) sc).2.checked +
        (l.foldl (processWatcher reg env) sc).2.skipped =
      sc.2.checked + sc.2.skipped + l.length := by
  induction l with
  | nil => intro sc; simp
  | cons x xs ih =>
    rintro ⟨s, c⟩
    rw [List.foldl_cons]
    have hstep := processWatcher_checked_skipped reg env s c x
    have hih := ih (processWatcher reg env (s, c) x)
    rw [List.length_cons]
    dsimp only
    omega

/-- Folding the loop body adds at most as much to `errors + triggered` as it
adds to `checked`. -/
theorem foldl_pw_errors_triggered (reg : Registry) (env : CycleEnv) (l : List Watcher) :
    ∀ sc : Store × Counters,
      (l.foldl (processWatcher reg env) sc).2.errors +
        (l.foldl (processWatcher reg env) sc).2.triggered + sc.2.checked ≤
      sc.2.errors + sc.2.triggered + (l.foldl (processWatcher reg env) sc).2.checked := by
  induction l with
  | nil => intro sc; simp
  | cons x xs ih =>
    rintro ⟨s, c⟩
    rw [List.foldl_cons]
    have hstep := processWatcher_errors_triggered reg env s c x
    have hih := ih (processWatcher reg env (s, c) x)
    dsimp only
    omega

/-- The cycle preserves the watcher id sequence. -/
theorem runCycle_watcherIds (reg : Registry) (env : CycleEnv) (s : Store) :
    watcherIds (runCycle reg env s).1 = watcherIds s :=
  (foldl_pw_invariants reg env (activeList s) (s, Counters.zero)).1

/-- The cycle preserves the types signature. -/
theorem runCycle_typesSig (reg : Registry) (env : CycleEnv) (s : Store) :
    typesSig (runCycle reg env s).1 = typesSig s :=
  (foldl_pw_invariants reg env (activeList s) (s, Counters.zero)).2.1

/-- The cycle preserves the operator id sequence. -/
theorem runCycle_operatorIds (reg : Registry) (env : CycleEnv) (s : Store) :
    operatorIds (runCycle reg env s).1 = operatorIds s :=
  (foldl_pw_invariants reg env (activeList s) (s, Counters.zero)).2.2.1

/-! ## Targeted step lemmas, one per loop-body outcome -/

/-- Unpack a successful resolution into its three witnesses. -/
theorem resolvesExec_elim (reg : Registry) (s : Store) (w : Watcher)
    (hres : resolvesExec reg s w) :
    ∃ ty eid ex, getWatcherType s w.typeId = some ty ∧ ty.executorId = some eid ∧
      eid ≠ "" ∧ getExecutor reg eid = some ex := by
  obtain ⟨eid, h1, h2, h3⟩ := hres
  unfold execIdOf at h1
  cases hgt : getWatcherType s w.typeId with
  | none => rw [hgt] at h1; simp at h1
  | some ty =>
    rw [hgt] at h1
    simp at h1
    obtain ⟨ex, hex⟩ := Option.isSome_iff_exists.1 h3
    exact ⟨ty, eid, ex, rfl, h1, h2, hex⟩

/-- Loop-body exit when resolution fails: the store is untouched and only
`skipped` is incremented. -/
theorem processWatcher_of_skip (reg : Registry) (env : CycleEnv) (s : Store)
    (c : Counters) (w : Watcher) (hres : ¬ resolvesExec reg s w) :
    processWatcher reg env (s, c) w = (s, { c with skipped := c.skipped + 1 }) := by
  unfold processWatcher
  cases hgt : getWatcherType s w.typeId with
  | none => rfl
  | some ty =>
    dsimp only
    cases hexec : ty.executorId with
    | none => rfl
    | some eid =>
      dsimp only
      by_cases heid : eid = ""
      · rw [if_pos heid]
      · rw [if_neg heid]
        cases hge : getExecutor reg eid with
        | none => rfl
        | some ex =>
          refine absurd ⟨eid, ?_, heid, ?_⟩ hres
          · unfold execIdOf
            rw [hgt]
            simp [hexec]
          · rw [hge]
            rfl

/-- Loop-body exit when the evaluator call throws: the store is untouched,
`checked` and `errors` are incremented. -/
theorem processWatcher_of_throws (reg : Registry) (env : CycleEnv) (s : Store)
    (c : Counters) (w : Watcher) (hres : resolvesExec reg s w)
    (hc : env.check w.id = .throws) :
    processWatcher reg env (s, c) w =
      (s, { c with checked := c.checked + 1, errors := c.errors + 1 }) := by
  obtain ⟨ty, eid, ex, hty, hexec, heid, hex⟩ := resolvesExec_elim reg s w hres
  unfold processWatcher
  rw [hty]
  dsimp only
  rw [hexec]
  dsimp only
  rw [if_neg heid, hex]
  dsimp only
  rw [hc]

/-- Loop-body exit when the check triggers but the webhook `fetch` rejects:
`lastChecked`/`lastCheckResult` are persisted, `checked` and `errors` are
incremented, and the trigger bookkeeping does not happen. -/
theorem processWatcher_of_deliverFail (reg : Registry) (env : CycleEnv) (s : Store)
    (c : Counters) (w : Watcher) (d : CheckData) (hres : resolvesExec reg s w)
    (hc : env.check w.id = .ok true d) (hf : env.fetch w.id = .throws) :
    processWatcher reg env (s, c) w =
      (updateWatcher s w.id (updChecked env.now d),
       { c with checked := c.checked + 1, errors := c.errors + 1 }) := by
  obtain ⟨ty, eid, ex, hty, hexec, heid, hex⟩ := resolvesExec_elim reg s w hres
  unfold processWatcher
  rw [hty]
  dsimp only
  rw [hexec]
  dsimp only
  rw [if_neg heid, hex]
  dsimp only
  rw [hc]
  dsimp only
  rw [hf, if_pos rfl]

/-- Loop-body exit when the check triggers and the webhook `fetch` resolves
(with any HTTP status): the full trigger bookkeeping is committed and
`checked` and `triggered` are incremented. -/
theorem processWatcher_of_deliverOk (reg : Registry) (env : CycleEnv) (s : Store)
    (c : Counters) (w : Watcher) (d : CheckData) (st : Nat)
    (hres : resolvesExec reg s w) (hc : env.check w.id = .ok true d)
    (hf : env.fetch w.id = .response st) :
    processWatcher reg env (s, c) w =
      (commitTrigger env s w d,
       { c with checked := c.checked + 1, triggered := c.triggered + 1 }) := by
  obtain ⟨ty, eid, ex, hty, hexec, heid, hex⟩ := resolvesExec_elim reg s w hres
  unfold processWatcher
  rw [hty]
  dsimp only
  rw [hexec]
  dsimp only
  rw [if_neg heid, hex]
  dsimp only
  rw [hc]
  dsimp only
  rw [hf, if_pos rfl]

/-- Loop-body exit when the check succeeds without triggering:
`lastChecked`/`lastCheckResult` are persisted and only `checked` is
incremented. -/
theorem processWatcher_of_noTrigger (reg : Registry) (env : CycleEnv) (s : Store)
    (c : Counters) (w : Watcher) (d : CheckData) (hres : resolvesExec reg s w)
    (hc : env.check w.id = .ok false d) :
    processWatcher reg env (s, c) w =
      (updateWatcher s w.id (updChecked env.now d),
       { c with checked := c.checked + 1 }) := by
  obtain ⟨ty, eid, ex, hty, hexec, heid, hex⟩ := resolvesExec_elim reg s w hres
  unfold processWatcher
  rw [hty]
  dsimp only
  rw [hexec]
  dsimp only
  rw [if_neg heid, hex]
  dsimp only
  rw [hc]
  simp

/-! ## Splitting the active snapshot around one watcher -/

/-- A member of a store with pairwise-distinct watcher ids is found by its id. -/
theorem getWatcher_of_mem_nodup (s : Store) (w : Watcher)
    (hnd : (watcherIds s).Nodup) (hw : w ∈ s.watchers) :
    getWatcher s w.id = some w :=
  find?_key_of_mem_nodup Watcher.id hnd hw

/-- An active member splits the active snapshot into a prefix and suffix
whose elements all carry other ids. -/
theorem active_split (s : Store) (w : Watcher)
    (hnd : (watcherIds s).Nodup) (hw : w ∈ s.watchers) (ha : w.status = .active) :
    ∃ l₁ l₂, activeList s = l₁ ++ w :: l₂ ∧
      (∀ x ∈ l₁, x.id ≠ w.id) ∧ (∀ x ∈ l₂, x.id ≠ w.id) := by
  have hmem : w ∈ activeList s := by
    unfold activeList
    exact List.mem_filter.2 ⟨hw, by simp [ha]⟩
  obtain ⟨l₁, l₂, hsplit⟩ := List.append_of_mem hmem
  have hsub : List.Sublist ((activeList s).map Watcher.id)
      (s.watchers.map Watcher.id) :=
    List.Sublist.map Watcher.id (List.filter_sublist s.watchers)
  have hnd2 : ((activeList s).map Watcher.id).Nodup := hnd.sublist hsub
  rw [hsplit] at hnd2
  rw [List.map_append, List.map_cons] at hnd2
  rw [List.nodup_append] at hnd2
  obtain ⟨hndl₁, hndc, hdisj⟩ := hnd2
  rw [List.nodup_cons] at hndc
  refine ⟨l₁, l₂, hsplit, ?_, ?_⟩
  · intro x hx h
    exact hdisj (h ▸ List.mem_map_of_mem Watcher.id hx) (List.mem_cons_self _ _)
  · intro x hx h
    exact hndc.1 (h ▸ List.mem_map_of_mem Watcher.id hx)

/-! ## Cycle-level targeted lemmas -/

/-- Decompose one cycle around a chosen active watcher: some mid-state with
the watcher's record and resolution environment intact, followed by the
watcher's own step, followed by watchers of other ids. -/
theorem runCycle_surgery (reg : Registry) (env : CycleEnv) (s : Store) (w : Watcher)
    (hnd : (watcherIds s).Nodup) (hw : w ∈ s.watchers) (ha : w.status = .active) :
    ∃ (ms : Store) (mc : Counters) (l₂ : List Watcher),
      (∀ x ∈ l₂, x.id ≠ w.id) ∧
      getWatcher ms w.id = some w ∧
      typesSig ms = typesSig s ∧
      operatorIds ms = operatorIds s ∧
      (∀ oid, opTT s oid ≤ opTT ms oid) ∧
      (∀ tid, wtTriggers s tid ≤ wtTriggers ms tid) ∧
      runCycle reg env s =
        l₂.foldl (processWatcher reg env) (processWatcher reg env (ms, mc) w) := by
  obtain ⟨l₁, l₂, hsplit, hl₁, hl₂⟩ := active_split s w hnd hw ha
  rcases hmid : l₁.foldl (processWatcher reg env) (s, Counters.zero) with ⟨ms, mc⟩
  obtain ⟨h1, h2, h3, h4, h5, h6⟩ := foldl_pw_invariants reg env l₁ (s, Counters.zero)
  rw [hmid] at h2 h3 h4 h5
  have hframe := foldl_pw_frame reg env l₁ w.id hl₁ (s, Counters.zero)
  rw [hmid] at hframe
  refine ⟨ms, mc, l₂, hl₂, ?_, h2, h3, h4, h5, ?_⟩
  · exact hframe.trans (getWatcher_of_mem_nodup s w hnd hw)
  · unfold runCycle
    rw [hsplit, List.foldl_append, List.foldl_cons, hmid]

/-- A commit on a present operator bumps its `totalTriggers` by exactly one. -/
theorem opTT_commitTrigger_eq (env : CycleEnv) (s : Store) (w : Watcher)
    (d : CheckData) (h : (getOperator s w.operatorId).isSome = true) :
    opTT (commitTrigger env s w d) w.operatorId = opTT s w.operatorId + 1 := by
  have h1 : opTT (commitTrigger env s w d) w.operatorId =
      opTT (incrementOperatorStats
        (updateWatcher (updateWatcher s w.id (updChecked env.now d)) w.id
          (updTrig env.now w.triggerCount)) w.operatorId .totalTriggers)
        w.operatorId := rfl
  have h2 : opTT s w.operatorId =
      opTT (updateWatcher (updateWatcher s w.id (updChecked env.now d)) w.id
        (updTrig env.now w.triggerCount)) w.operatorId := rfl
  rw [h1, h2]
  exact opTT_incrementOperatorStats_eq _ w.operatorId h

/-- A commit on a present type bumps its `triggers` by exactly one. -/
theorem wtTriggers_commitTrigger_eq (env : CycleEnv) (s : Store) (w : Watcher)
    (d : CheckData) (h : (getWatcherType s w.typeId).isSome = true) :
    wtTriggers (commitTrigger env s w d) w.typeId = wtTriggers s w.typeId + 1 := by
  have h1 : wtTriggers s w.typeId =
      wtTriggers (incrementOperatorStats
        (updateWatcher (updateWatcher s w.id (updChecked env.now d)) w.id
          (updTrig env.now w.triggerCount)) w.operatorId .totalTriggers)
        w.typeId := rfl
  rw [h1]
  exact wtTriggers_incrementWatcherTypeStats_eq _ w.typeId h

/-- A resolving watcher has a present type. -/
theorem resolvesExec_type_isSome (reg : Registry) (s : Store) (w : Watcher)
    (hres : resolvesExec reg s w) : (getWatcherType s w.typeId).isSome = true := by
  obtain ⟨ty, eid, ex, hty, _, _, _⟩ := resolvesExec_elim reg s w hres
  rw [hty]
  rfl

/-- Cycle effect on a skipped watcher: record untouched, `skipped` counted. -/
theorem runCycle_skip_case (reg : Registry) (env : CycleEnv) (s : Store) (w : Watcher)
    (hnd : (watcherIds s).Nodup) (hw : w ∈ s.watchers) (ha : w.status = .active)
    (hres : ¬ resolvesExec reg s w) :
    getWatcher (runCycle reg env s).1 w.id = some w ∧
    1 ≤ (runCycle reg env s).2.skipped := by
  obtain ⟨ms, mc, l₂, hl₂, hfind, hsig, hops, hopTT, hwt, heq⟩ :=
    runCycle_surgery reg env s w hnd hw ha
  have hres' : ¬ resolvesExec reg ms w := fun h =>
    hres (resolvesExec_congr reg ms s w hsig.symm h)
  have hstep := processWatcher_of_skip reg env ms mc w hres'
  constructor
  · rw [heq, hstep,
      foldl_pw_frame reg env l₂ w.id hl₂ (ms, { mc with skipped := mc.skipped + 1 })]
    exact hfind
  · rw [heq, hstep]
    have h6 := (foldl_pw_invariants reg env l₂
      (ms, { mc with skipped := mc.skipped + 1 })).2.2.2.2.2
    have h7 := h6.2.2.2
    dsimp only at h7
    omega

/-- Cycle effect on a watcher whose evaluator throws: record untouched,
`errors` counted. -/
theorem runCycle_throws_case (reg : Registry) (env : CycleEnv) (s : Store) (w : Watcher)
    (hnd : (watcherIds s).Nodup) (hw : w ∈ s.watchers) (ha : w.status = .active)
    (hres : resolvesExec reg s w) (hc : env.check w.id = .throws) :
    getWatcher (runCycle reg env s).1 w.id = some w ∧
    1 ≤ (runCycle reg env s).2.errors := by
  obtain ⟨ms, mc, l₂, hl₂, hfind, hsig, hops, hopTT, hwt, heq⟩ :=
    runCycle_surgery reg env s w hnd hw ha
  have hres' : resolvesExec reg ms w := resolvesExec_congr reg s ms w hsig hres
  have hstep := processWatcher_of_throws reg env ms mc w hres' hc
  constructor
  · rw [heq, hstep,
      foldl_pw_frame reg env l₂ w.id hl₂
        (ms, { mc with checked := mc.checked + 1, errors := mc.errors + 1 })]
    exact hfind
  · rw [heq, hstep]
    have h6 := (foldl_pw_invariants reg env l₂
      (ms, { mc with checked := mc.checked + 1, errors := mc.errors + 1 })).2.2.2.2.2
    have h7 := h6.2.2.1
    dsimp only at h7
    omega

/-- Cycle effect on a triggered watcher whose delivery throws: only
`lastChecked`/`lastCheckResult` change, `errors` counted. -/
theorem runCycle_deliverFail_case (reg : Registry) (env : CycleEnv) (s : Store)
    (w : Watcher) (d : CheckData)
    (hnd : (watcherIds s).Nodup) (hw : w ∈ s.watchers) (ha : w.status = .active)
    (hres : resolvesExec reg s w) (hc : env.check w.id = .ok true d)
    (hf : env.fetch w.id = .throws) :
    getWatcher (runCycle reg env s).1 w.id = some (updChecked env.now d w) ∧
    1 ≤ (runCycle reg env s).2.errors := by
  obtain ⟨ms, mc, l₂, hl₂, hfind, hsig, hops, hopTT, hwt, heq⟩ :=
    runCycle_surgery reg env s w hnd hw ha
  have hres' : resolvesExec reg ms w := resolvesExec_congr reg s ms w hsig hres
  have hstep := processWatcher_of_deliverFail reg env ms mc w d hres' hc hf
  constructor
  · rw [heq, hstep,
      foldl_pw_frame reg env l₂ w.id hl₂
        (updateWatcher ms w.id (updChecked env.now d),
         { mc with checked := mc.checked + 1, errors := mc.errors + 1 })]
    have h8 : getWatcher (updateWatcher ms w.id (updChecked env.now d)) w.id =
        (getWatcher ms w.id).map (updChecked env.now d) :=
      getWatcher_updateWatcher_self ms w.id _ (updChecked_id env.now d)
    rw [h8, hfind]
    rfl
  · rw [heq, hstep]
    have h6 := (foldl_pw_invariants reg env l₂
      (updateWatcher ms w.id (updChecked env.now d),
       { mc with checked := mc.checked + 1, errors := mc.errors + 1 })).2.2.2.2.2
    have h7 := h6.2.2.1
    dsimp only at h7
    omega

/-- Cycle effect on a triggered watcher whose delivery resolves (any HTTP
status): full trigger bookkeeping, `triggered` counted, both trigger stats
bumped. -/
theorem runCycle_deliverOk_case (reg : Registry) (env : CycleEnv) (s : Store)
    (w : Watcher) (d : CheckData) (st : Nat)
    (hnd : (watcherIds s).Nodup) (hw : w ∈ s.watchers) (ha : w.status = .active)
    (hres : resolvesExec reg s w) (hc : env.check w.id = .ok true d)
    (hf : env.fetch w.id = .response st) :
    getWatcher (runCycle reg env s).1 w.id =
      some (updTrig env.now w.triggerCount (updChecked env.now d w)) ∧
    1 ≤ (runCycle reg env s).2.triggered := by
  obtain ⟨ms, mc, l₂, hl₂, hfind, hsig, hops, hopTT, hwt, heq⟩ :=
    runCycle_surgery reg env s w hnd hw ha
  have hres' : resolvesExec reg ms w := resolvesExec_congr reg s ms w hsig hres
  have hstep := processWatcher_of_deliverOk reg env ms mc w d st hres' hc hf
  obtain ⟨i1, i2, i3, i4, i5, i6⟩ := foldl_pw_invariants reg env l₂
    (commitTrigger env ms w d,
     { mc with checked := mc.checked + 1, triggered := mc.triggered + 1 })
  constructor
  · rw [heq, hstep,
      foldl_pw_frame reg env l₂ w.id hl₂
        (commitTrigger env ms w d,
         { mc with checked := mc.checked + 1, triggered := mc.triggered + 1 })]
    have h8 := getWatcher_commitTrigger_self env ms w d
    rw [h8, hfind]
    rfl
  · rw [heq, hstep]
    have h7 := i6.2.1
    dsimp only at h7
    omega

/-- Cycle stats effect of a successful delivery: both trigger stats are
bumped by at least one (given the operator is present). -/
theorem runCycle_deliverOk_stats (reg : Registry) (env : CycleEnv) (s : Store)
    (w : Watcher) (d : CheckData) (st : Nat)
    (hnd : (watcherIds s).Nodup) (hw : w ∈ s.watchers) (ha : w.status = .active)
    (hres : resolvesExec reg s w) (hc : env.check w.id = .ok true d)
    (hf : env.fetch w.id = .response st)
    (hop : (getOperator s w.operatorId).isSome = true) :
    opTT s w.operatorId + 1 ≤ opTT (runCycle reg env s).1 w.operatorId ∧
    wtTriggers s w.typeId + 1 ≤ wtTriggers (runCycle reg env s).1 w.typeId := by
  obtain ⟨ms, mc, l₂, hl₂, hfind, hsig, hops, hopTT, hwt, heq⟩ :=
    runCycle_surgery reg env s w hnd hw ha
  have hres' : resolvesExec reg ms w := resolvesExec_congr reg s ms w hsig hres
  have hstep := processWatcher_of_deliverOk reg env ms mc w d st hres' hc hf
  have hopms : (getOperator ms w.operatorId).isSome = true := by
    unfold getOperator at hop ⊢
    rw [isSome_find?_key Operator.id w.operatorId ms.operators]
    rw [isSome_find?_key Operator.id w.operatorId s.operators] at hop
    unfold operatorIds at hops
    rw [hops]
    exact hop
  have htyms : (getWatcherType ms w.typeId).isSome = true :=
    resolvesExec_type_isSome reg ms w hres'
  obtain ⟨i1, i2, i3, i4, i5, i6⟩ := foldl_pw_invariants reg env l₂
    (commitTrigger env ms w d,
     { mc with checked := mc.checked + 1, triggered := mc.triggered + 1 })
  constructor
  · rw [heq, hstep]
    have h9 := i4 w.operatorId
    dsimp only at h9
    rw [opTT_commitTrigger_eq env ms w d hopms] at h9
    have h10 := hopTT w.operatorId
    omega
  · rw [heq, hstep]
    have h9 := i5 w.typeId
    dsimp only at h9
    rw [wtTriggers_commitTrigger_eq env ms w d htyms] at h9
    have h10 := hwt w.typeId
    omega

/-! ## Creation-branch machinery -/

/-- The watcher record the creation tail persists. -/
def creationWatcher (now : Nat) (req : CreateReq) (s : Store) (ty : WatcherType) : Watcher :=
  { id := s.nextId, typeId := req.typeId, operatorId := ty.operatorId,
    customerId := resolvedCustomerId req, config := req.config,
    webhook := req.webhook, status := .active, createdAt := now,
    lastChecked := none, lastCheckResult := none, lastTriggered := none,
    triggerCount := 0 }

/-- The payment record the creation tail persists. -/
def creationPayment (now : Nat) (req : CreateReq) (s : Store) (ty : WatcherType) : Payment :=
  { id := s.nextId + 1, watcherId := s.nextId, operatorId := ty.operatorId,
    customerId := resolvedCustomerId req, amount := ty.price,
    operatorShare := ty.price * OPERATOR_SHARE,
    platformShare := ty.price * PLATFORM_FEE, network := NETWORK,
    createdAt := now }

/-- The receipt record the creation tail persists. -/
def creationReceipt (req : CreateReq) (s : Store) (ty : WatcherType) : Receipt :=
  { id := s.nextId + 2, watcherId := s.nextId, typeId := ty.id,
    amount := ty.price, chain := NETWORK, rail := "x402",
    fulfillmentHash := requestHash req, customerId := resolvedCustomerId req,
    operatorId := ty.operatorId, paymentId := s.nextId + 1 }

/-- The store the creation tail leaves behind. -/
def creationStore (now : Nat) (req : CreateReq) (s : Store) (ty : WatcherType) : Store :=
  incrementWatcherTypeStats
    (incrementOperatorStats
      { s with watchers := s.watchers ++ [creationWatcher now req s ty],
               payments := s.payments ++ [creationPayment now req s ty],
               receipts := s.receipts ++ [creationReceipt req s ty],
               nextId := s.nextId + 1 + 1 + 1 }
      ty.operatorId .watchersCreated)
    req.typeId .instances

/-- The creation tail computed in closed form. -/
theorem performCreation_eq (now : Nat) (req : CreateReq) (s : Store) (ty : WatcherType) :
    performCreation now req s ty =
      (.created (creationWatcher now req s ty) (creationPayment now req s ty)
        (creationReceipt req s ty),
       creationStore now req s ty) := rfl

/-- A fresh creation implies: no prior receipt under the request hash, a
resolved type, and the closed-form creation outcome. -/
theorem postWatchers_created_elim (reg : Registry) (now : Nat) (req : CreateReq)
    (s : Store) (h : isCreated (postWatchers reg now req s).1 = true) :
    getReceiptByHash s (requestHash req) = none ∧
    ∃ ty, getWatcherType s req.typeId = some ty ∧
      postWatchers reg now req s = performCreation now req s ty := by
  unfold postWatchers at h ⊢
  cases hr : getReceiptByHash s (requestHash req) with
  | some r =>
    cases hw : getWatcher s r.watcherId with
    | some ew => simp [isCreated, hr, hw] at h
    | none => simp [isCreated, hr, hw] at h
  | none =>
    rw [hr] at h
    dsimp only at h
    refine ⟨rfl, ?_⟩
    cases hty : getWatcherType s req.typeId with
    | none => simp [isCreated, hty] at h
    | some ty =>
      rw [hty] at h
      dsimp only at h
      refine ⟨ty, rfl, ?_⟩
      dsimp only
      cases hop : getOperator s ty.operatorId with
      | none => simp [isCreated, hop] at h
      | some op =>
        rw [hop] at h
        dsimp only at h ⊢
        by_cases hweb1 : req.webhook = ""
        · rw [if_pos hweb1] at h
          simp [isCreated] at h
        · rw [if_neg hweb1] at h ⊢
          cases hsw : strStartsWith req.webhook "http" with
          | false => simp [isCreated, hsw] at h
          | true =>
            rw [hsw] at h
            simp only [Bool.not_true, Bool.false_eq_true, if_false] at h ⊢
            cases hval : configValidationErrors reg ty req.config with
            | some errs => simp [isCreated, hval] at h
            | none => rfl

/-- The creation tail appends exactly one receipt. -/
theorem creationStore_receipts (now : Nat) (req : CreateReq) (s : Store) (ty : WatcherType) :
    (creationStore now req s ty).receipts = s.receipts ++ [creationReceipt req s ty] := rfl

/-- The creation tail appends exactly one watcher. -/
theorem creationStore_watchers (now : Nat) (req : CreateReq) (s : Store) (ty : WatcherType) :
    (creationStore now req s ty).watchers = s.watchers ++ [creationWatcher now req s ty] := rfl

/-- The creation tail appends exactly one payment. -/
theorem creationStore_payments (now : Nat) (req : CreateReq) (s : Store) (ty : WatcherType) :
    (creationStore now req s ty).payments = s.payments ++ [creationPayment now req s ty] := rfl

/-- After a fresh creation, the request hash resolves to the new receipt. -/
theorem creationStore_getReceiptByHash (now : Nat) (req : CreateReq) (s : Store)
    (ty : WatcherType) (hr : getReceiptByHash s (requestHash req) = none) :
    getReceiptByHash (creationStore now req s ty) (requestHash req) =
      some (creationReceipt req s ty) := by
  unfold getReceiptByHash at hr ⊢
  rw [creationStore_receipts]
  rw [find?_append_of_none _ _ _ hr]
  have hp : (fun r => decide (r.fulfillmentHash = requestHash req))
      (creationReceipt req s ty) = true := by
    simp [creationReceipt]
  simp [List.find?_cons, hp]

/-! ## Claim C1 -/

/-- C1: Watcher creation is idempotent — a second call with the identical
request after a successful creation replays: it reports HTTP 200 with
`idempotent: true`, the same watcher id and the very same receipt (hence the
same `fulfillmentHash`), performs no store mutation at all, and exactly one
Payment was persisted by the pair of calls. -/
theorem c1_creation_idempotent (reg : Registry) (now1 now2 : Nat) (req : CreateReq)
    (s : Store) (h : isCreated (postWatchers reg now1 req s).1 = true) :
    isIdempotentReplay (postWatchers reg now2 req (postWatchers reg now1 req s).2).1 = true ∧
    resultWatcherId? (postWatchers reg now2 req (postWatchers reg now1 req s).2).1 =
      resultWatcherId? (postWatchers reg now1 req s).1 ∧
    resultReceipt? (postWatchers reg now2 req (postWatchers reg now1 req s).2).1 =
      resultReceipt? (postWatchers reg now1 req s).1 ∧
    (postWatchers reg now2 req (postWatchers reg now1 req s).2).2 =
      (postWatchers reg now1 req s).2 ∧
    (postWatchers reg now1 req s).2.payments.length = s.payments.length + 1 := by
  obtain ⟨hr, ty, hty, heq⟩ := postWatchers_created_elim reg now1 req s h
  rw [heq, performCreation_eq]
  dsimp only
  have hrS := creationStore_getReceiptByHash now1 req s ty hr
  have hlen : (creationStore now1 req s ty).payments.length = s.payments.length + 1 := by
    rw [creationStore_payments]
    simp
  unfold postWatchers
  rw [hrS]
  dsimp only
  cases hwS : getWatcher (creationStore now1 req s ty)
      (creationReceipt req s ty).watcherId with
  | some ew =>
    have hid : ew.id = (creationReceipt req s ty).watcherId := by
      unfold getWatcher at hwS
      have := List.find?_some hwS
      simpa using this
    refine ⟨rfl, ?_, rfl, rfl, hlen⟩
    unfold resultWatcherId? WatcherView.viewId
    dsimp only
    rw [hid]
    rfl
  | none =>
    refine ⟨rfl, rfl, rfl, rfl, hlen⟩

/-! ## Claims C5, C10, C4 -/

/-- The 80/20 split property of a (possible) payment record. -/
def PaymentSplitOk : Option Payment → Prop
  | none => False
  | some p =>
    p.operatorShare = p.amount * OPERATOR_SHARE ∧
    p.platformShare = p.amount * PLATFORM_FEE ∧
    p.operatorShare + p.platformShare = p.amount

/-- C5: Payment split — every payment persisted by a successful creation has
`operatorShare = amount * 0.8`, `platformShare = amount * 0.2`, and the two
shares sum exactly to the amount over the rationals. -/
theorem c5_payment_split (reg : Registry) (now : Nat) (req : CreateReq) (s : Store)
    (h : isCreated (postWatchers reg now req s).1 = true) :
    PaymentSplitOk (resultPayment? (postWatchers reg now req s).1) := by
  obtain ⟨hr, ty, hty, heq⟩ := postWatchers_created_elim reg now req s h
  rw [heq, performCreation_eq]
  dsimp only
  unfold resultPayment? PaymentSplitOk creationPayment
  dsimp only
  refine ⟨rfl, rfl, ?_⟩
  have hsum : OPERATOR_SHARE + PLATFORM_FEE = 1 := by
    norm_num [OPERATOR_SHARE, PLATFORM_FEE]
  calc ty.price * OPERATOR_SHARE + ty.price * PLATFORM_FEE
      = ty.price * (OPERATOR_SHARE + PLATFORM_FEE) := by ring
    _ = ty.price * 1 := by rw [hsum]
    _ = ty.price := mul_one _

/-- Witness for C5: the demo creation yields a 10 = 8 + 2 split. -/
theorem c5_payment_split_witness :
    PaymentSplitOk (resultPayment? (postWatchers regA 0 reqB sB).1) :=
  c5_payment_split regA 0 reqB sB (by decide)

/-- C10: an idempotent replay succeeds even if the receipt's watcher record
no longer exists — the handler returns HTTP 200 with the stored receipt and
a watcher object containing only the receipt's watcher id, touching nothing. -/
theorem c10_replay_watcher_missing (reg : Registry) (now : Nat) (req : CreateReq)
    (s : Store) (r : Receipt)
    (hR : getReceiptByHash s (requestHash req) = some r)
    (hW : getWatcher s r.watcherId = none) :
    postWatchers reg now req s = (.idempotentReplay (.idOnly r.watcherId) r, s) ∧
    httpStatus (postWatchers reg now req s).1 = 200 := by
  have heq : postWatchers reg now req s =
      (.idempotentReplay (.idOnly r.watcherId) r, s) := by
    unfold postWatchers
    rw [hR]
    dsimp only
    rw [hW]
  exact ⟨heq, by rw [heq]; rfl⟩

/-- A stale receipt fixture whose watcher id 77 has no stored watcher. -/
def rC : Receipt :=
  { id := 9, watcherId := 77, typeId := 2, amount := 10, chain := "c",
    rail := "x402", fulfillmentHash := requestHash reqB, customerId := "cust",
    operatorId := 1, paymentId := 8 }

/-- A demo store holding only the stale receipt `rC`. -/
def sC : Store := { sB with receipts := [rC] }

/-- Witness for C10 on the stale-receipt store. -/
theorem c10_replay_watcher_missing_witness :
    postWatchers regA 0 reqB sC = (.idempotentReplay (.idOnly 77) rC, sC) ∧
    httpStatus (postWatchers regA 0 reqB sC).1 = 200 :=
  c10_replay_watcher_missing regA 0 reqB sC rC (by decide) (by decide)

/-- A well-formed http(s) URL is non-empty and passes the code's
`startsWith('http')` check. -/
theorem wellFormed_webhook_passes (u : String) (h : isWellFormedHttpUrl u = true) :
    u ≠ "" ∧ strStartsWith u "http" = true := by
  have hne : u ≠ "" := by
    intro he
    rw [he] at h
    exact absurd h (by decide)
  refine ⟨hne, ?_⟩
  unfold isWellFormedHttpUrl at h
  unfold strStartsWith at h ⊢
  rw [Bool.or_eq_true] at h
  have hpre1 : List.IsPrefix "http".data "http://".data :=
    List.isPrefixOf_iff_prefix.mp (by decide)
  have hpre2 : List.IsPrefix "http".data "https://".data :=
    List.isPrefixOf_iff_prefix.mp (by decide)
  rcases h with h | h <;> rw [Bool.and_eq_true] at h
  · exact List.isPrefixOf_iff_prefix.mpr
      (hpre1.trans (List.isPrefixOf_iff_prefix.mp h.1))
  · exact List.isPrefixOf_iff_prefix.mpr
      (hpre2.trans (List.isPrefixOf_iff_prefix.mp h.1))

/-- C4 (amended): once the webhook check is reached (no prior receipt, type
and operator resolve), the handler answers InvalidWebhook exactly when the
webhook is empty or does not start with the literal prefix "http", and then
leaves the store unchanged; consequently every well-formed http(s) URL
passes the check — but the check is strictly weaker than well-formedness. -/
theorem c4_webhook_check (reg : Registry) (now : Nat) (req : CreateReq) (s : Store)
    (ty : WatcherType) (op : Operator)
    (hr : getReceiptByHash s (requestHash req) = none)
    (hty : getWatcherType s req.typeId = some ty)
    (hop : getOperator s ty.operatorId = some op) :
    ((postWatchers reg now req s).1 = .invalidWebhook ↔
      (req.webhook = "" ∨ strStartsWith req.webhook "http" = false)) ∧
    ((postWatchers reg now req s).1 = .invalidWebhook →
      (postWatchers reg now req s).2 = s) ∧
    (isWellFormedHttpUrl req.webhook = true →
      (postWatchers reg now req s).1 ≠ .invalidWebhook) := by
  have hcore : ((postWatchers reg now req s).1 = .invalidWebhook ↔
      (req.webhook = "" ∨ strStartsWith req.webhook "http" = false)) ∧
      ((postWatchers reg now req s).1 = .invalidWebhook →
        (postWatchers reg now req s).2 = s) := by
    unfold postWatchers
    rw [hr]
    dsimp only
    rw [hty]
    dsimp only
    rw [hop]
    dsimp only
    by_cases hweb1 : req.webhook = ""
    · rw [if_pos hweb1]
      refine ⟨Iff.intro (fun _ => Or.inl hweb1) (fun _ => rfl), fun _ => rfl⟩
    · rw [if_neg hweb1]
      cases hsw : strStartsWith req.webhook "http" with
      | false =>
        simp only [Bool.not_false, if_true]
        simp
      | true =>
        simp only [Bool.not_true, Bool.false_eq_true, if_false]
        cases hval : configValidationErrors reg ty req.config with
        | some errs =>
          refine ⟨⟨fun hcc => absurd hcc (by simp), ?_⟩, fun _ => rfl⟩
          rintro (h1 | h1)
          · exact absurd h1 hweb1
          · simp at h1
        | none =>
          rw [performCreation_eq]
          refine ⟨⟨fun hcc => absurd hcc (by simp), ?_⟩,
            fun hcc => absurd hcc (by simp)⟩
          rintro (h1 | h1)
          · exact absurd h1 hweb1
          · simp at h1
  refine ⟨hcore.1, hcore.2, ?_⟩
  intro hwf hbad
  obtain ⟨hne, hsw⟩ := wellFormed_webhook_passes req.webhook hwf
  rcases hcore.1.1 hbad with h1 | h1
  · exact hne h1
  · rw [hsw] at h1
    simp at h1

/-- C4 counterexample: the string "httpgarbage" is not a well-formed
HTTP(S) URL, yet the creation request carrying it succeeds with HTTP 201
instead of failing with the InvalidWebhook 400. -/
theorem c4_counterexample :
    isWellFormedHttpUrl "httpgarbage" = false ∧
    httpStatus (postWatchers regA 0
      { reqB with webhook := "httpgarbage" } sB).1 = 201 :=
  ⟨by decide, by decide⟩

/-- Witness for C4 (amended) on the demo store: a well-formed webhook is
accepted, and the rejection condition evaluates as the iff states. -/
theorem c4_webhook_check_witness :
    ((postWatchers regA 0 reqB sB).1 = .invalidWebhook ↔
      (reqB.webhook = "" ∨ strStartsWith reqB.webhook "http" = false)) ∧
    ((postWatchers regA 0 reqB sB).1 = .invalidWebhook →
      (postWatchers regA 0 reqB sB).2 = sB) ∧
    (isWellFormedHttpUrl reqB.webhook = true →
      (postWatchers regA 0 reqB sB).1 ≠ .invalidWebhook) :=
  c4_webhook_check regA 0 reqB sB tyA opA (by decide) (by decide) (by decide)

/-- Witness for C1: creating twice with the demo request replays. -/
theorem c1_creation_idempotent_witness :
    isIdempotentReplay (postWatchers regA 7 reqB (postWatchers regA 0 reqB sB).2).1 = true ∧
    resultWatcherId? (postWatchers regA 7 reqB (postWatchers regA 0 reqB sB).2).1 =
      resultWatcherId? (postWatchers regA 0 reqB sB).1 ∧
    resultReceipt? (postWatchers regA 7 reqB (postWatchers regA 0 reqB sB).2).1 =
      resultReceipt? (postWatchers regA 0 reqB sB).1 ∧
    (postWatchers regA 7 reqB (postWatchers regA 0 reqB sB).2).2 =
      (postWatchers regA 0 reqB sB).2 ∧
    (postWatchers regA 0 reqB sB).2.payments.length = sB.payments.length + 1 :=
  c1_creation_idempotent regA 0 7 reqB sB (by decide)

/-! ## Claim C2 -/

/-- Cycle effect on a resolving watcher whose check succeeds without
triggering: exactly `lastChecked`/`lastCheckResult` are persisted and
`checked` is counted. -/
theorem runCycle_noTrigger_case (reg : Registry) (env : CycleEnv) (s : Store)
    (w : Watcher) (d : CheckData)
    (hnd : (watcherIds s).Nodup) (hw : w ∈ s.watchers) (ha : w.status = .active)
    (hres : resolvesExec reg s w) (hc : env.check w.id = .ok false d) :
    getWatcher (runCycle reg env s).1 w.id = some (updChecked env.now d w) ∧
    1 ≤ (runCycle reg env s).2.checked := by
  obtain ⟨ms, mc, l₂, hl₂, hfind, hsig, hops, hopTT, hwt, heq⟩ :=
    runCycle_surgery reg env s w hnd hw ha
  have hres' : resolvesExec reg ms w := resolvesExec_congr reg s ms w hsig hres
  have hstep := processWatcher_of_noTrigger reg env ms mc w d hres' hc
  constructor
  · rw [heq, hstep,
      foldl_pw_frame reg env l₂ w.id hl₂
        (updateWatcher ms w.id (updChecked env.now d),
         { mc with checked := mc.checked + 1 })]
    have h8 : getWatcher (updateWatcher ms w.id (updChecked env.now d)) w.id =
        (getWatcher ms w.id).map (updChecked env.now d) :=
      getWatcher_updateWatcher_self ms w.id _ (updChecked_id env.now d)
    rw [h8, hfind]
    rfl
  · rw [heq, hstep]
    have h6 := (foldl_pw_invariants reg env l₂
      (updateWatcher ms w.id (updChecked env.now d),
       { mc with checked := mc.checked + 1 })).2.2.2.2.2
    have h7 := h6.1
    dsimp only at h7
    omega

/-- C2 (amended): for every set of `N` active watchers processed by one
cycle invocation (including any whose evaluator's check throws), the cycle
runs to completion; the returned counters satisfy `checked + skipped = N`
with each watcher counted exactly once under `checked` or `skipped`
(`errors` and `triggered` count events among the checked watchers, so
`errors + triggered ≤ checked` — a watcher whose evaluator throws is
counted under `checked` and additionally increments `errors`, hence
`checked + errors + skipped` exceeds `N` then); and the watchers whose
evaluators do not throw are processed normally: each such watcher's record
ends the cycle with exactly the normal-path updates for its own check and
delivery outcome, unaffected by the other watchers. -/
theorem c2_cycle_accounting (reg : Registry) (env : CycleEnv) (s : Store) :
    (runCycle reg env s).2.checked + (runCycle reg env s).2.skipped =
      (activeList s).length ∧
    (runCycle reg env s).2.errors + (runCycle reg env s).2.triggered ≤
      (runCycle reg env s).2.checked ∧
    (∀ (w : Watcher) (d : CheckData),
      (watcherIds s).Nodup → w ∈ s.watchers → w.status = WStatus.active →
      resolvesExec reg s w →
      (env.check w.id = .ok false d →
        getWatcher (runCycle reg env s).1 w.id = some (updChecked env.now d w)) ∧
      (env.check w.id = .ok true d → env.fetch w.id = .throws →
        getWatcher (runCycle reg env s).1 w.id = some (updChecked env.now d w)) ∧
      (∀ st, env.check w.id = .ok true d → env.fetch w.id = .response st →
        getWatcher (runCycle reg env s).1 w.id =
          some (updTrig env.now w.triggerCount (updChecked env.now d w)))) := by
  have h1 := foldl_pw_checked_skipped reg env (activeList s) (s, Counters.zero)
  have h2 := foldl_pw_errors_triggered reg env (activeList s) (s, Counters.zero)
  have hz1 : (s, Counters.zero).2.checked = 0 := rfl
  have hz2 : (s, Counters.zero).2.skipped = 0 := rfl
  have hz3 : (s, Counters.zero).2.errors = 0 := rfl
  have hz4 : (s, Counters.zero).2.triggered = 0 := rfl
  rw [hz1, hz2] at h1
  rw [hz3, hz4, hz1] at h2
  refine ⟨?_, ?_, ?_⟩
  · unfold runCycle
    omega
  · unfold runCycle
    omega
  · intro w d hnd hw ha hres
    refine ⟨?_, ?_, ?_⟩
    · intro hc
      exact (runCycle_noTrigger_case reg env s w d hnd hw ha hres hc).1
    · intro hc hf
      exact (runCycle_deliverFail_case reg env s w d hnd hw ha hres hc hf).1
    · intro st hc hf
      exact (runCycle_deliverOk_case reg env s w d st hnd hw ha hres hc hf).1

/-- The all-throwing environment used by the C2 counterexample. -/
def envThrowAll : CycleEnv :=
  { now := 50, check := fun _ => .throws, fetch := fun _ => .throws }

/-- C2 counterexample: one active watcher whose evaluator throws yields
`checked = 1, errors = 1, skipped = 0`, so `checked + errors + skipped = 2`
while `N = 1` — the claimed partition `checked + errors + skipped == N`
fails because a throwing watcher is counted under both. -/
theorem c2_counterexample :
    (runCycle regA envThrowAll sA).2.checked +
      (runCycle regA envThrowAll sA).2.errors +
      (runCycle regA envThrowAll sA).2.skipped = 2 ∧
    (activeList sA).length = 1 :=
  ⟨by decide, by decide⟩

/-- A calm environment: every check succeeds without triggering. -/
def envNoTrigger : CycleEnv :=
  { now := 80, check := fun _ => .ok false "calm", fetch := fun _ => .throws }

/-- Witness for C2 (amended) on the demo store: the counter identity holds
and the non-throwing demo watcher receives exactly the normal no-trigger
updates. -/
theorem c2_cycle_accounting_witness :
    (runCycle regA envNoTrigger sA).2.checked +
      (runCycle regA envNoTrigger sA).2.skipped = (activeList sA).length ∧
    getWatcher (runCycle regA envNoTrigger sA).1 wA.id =
      some (updChecked envNoTrigger.now "calm" wA) :=
  ⟨(c2_cycle_accounting regA envNoTrigger sA).1,
   ((c2_cycle_accounting regA envNoTrigger sA).2.2 wA "calm" (by decide) (by decide)
     (by decide) ⟨"exec", by decide, by decide, by decide⟩).1 rfl⟩

/-! ## Claim C3 -/

/-- C3: Delivery-failure retry — when the evaluator of an active, resolving
watcher reports `triggered: true` but the webhook delivery throws,
`triggerCount` and `lastTriggered` are unchanged after the cycle (only
`lastChecked`/`lastCheckResult` move) and the cycle's `errors` counter is
incremented; when a later cycle triggers again and delivery succeeds,
`triggerCount` becomes 1 only after that later cycle. -/
theorem c3_delivery_failure_retry (reg : Registry) (env1 env2 : CycleEnv)
    (s : Store) (w : Watcher) (d1 d2 : CheckData) (st : Nat)
    (hnd : (watcherIds s).Nodup) (hw : w ∈ s.watchers) (ha : w.status = .active)
    (hres : resolvesExec reg s w) (htc : w.triggerCount = 0)
    (h1c : env1.check w.id = .ok true d1) (h1f : env1.fetch w.id = .throws)
    (h2c : env2.check w.id = .ok true d2) (h2f : env2.fetch w.id = .response st) :
    getWatcher (runCycle reg env1 s).1 w.id = some (updChecked env1.now d1 w) ∧
    tcOf (runCycle reg env1 s).1 w.id = 0 ∧
    (updChecked env1.now d1 w).lastTriggered = w.lastTriggered ∧
    1 ≤ (runCycle reg env1 s).2.errors ∧
    tcOf (runCycle reg env2 (runCycle reg env1 s).1).1 w.id = 1 := by
  obtain ⟨hrec1, herr1⟩ :=
    runCycle_deliverFail_case reg env1 s w d1 hnd hw ha hres h1c h1f
  have htc1 : tcOf (runCycle reg env1 s).1 w.id = 0 := by
    unfold tcOf
    rw [hrec1]
    exact htc
  refine ⟨hrec1, htc1, rfl, herr1, ?_⟩
  have hnd1 : (watcherIds (runCycle reg env1 s).1).Nodup := by
    rw [runCycle_watcherIds]
    exact hnd
  have hw1 : updChecked env1.now d1 w ∈ (runCycle reg env1 s).1.watchers := by
    unfold getWatcher at hrec1
    exact List.mem_of_find?_eq_some hrec1
  have ha1 : (updChecked env1.now d1 w).status = WStatus.active := ha
  have hres1 : resolvesExec reg (runCycle reg env1 s).1 (updChecked env1.now d1 w) := by
    apply resolvesExec_congr reg s _ _ (runCycle_typesSig reg env1 s)
    exact hres
  have h2c' : env2.check (updChecked env1.now d1 w).id = .ok true d2 := h2c
  have h2f' : env2.fetch (updChecked env1.now d1 w).id = .response st := h2f
  obtain ⟨hrec2, _⟩ := runCycle_deliverOk_case reg env2 (runCycle reg env1 s).1
    (updChecked env1.now d1 w) d2 st hnd1 hw1 ha1 hres1 h2c' h2f'
  have hrec2' : getWatcher (runCycle reg env2 (runCycle reg env1 s).1).1 w.id =
      some (updTrig env2.now (updChecked env1.now d1 w).triggerCount
        (updChecked env2.now d2 (updChecked env1.now d1 w))) := hrec2
  unfold tcOf
  rw [hrec2']
  show w.triggerCount + 1 = 1
  rw [htc]

/-- The cycle-1 environment of the C3 witness: triggers, delivery throws. -/
def envFailDeliver : CycleEnv :=
  { now := 50, check := fun _ => .ok true "low", fetch := fun _ => .throws }

/-- The cycle-2 environment of the C3 witness: triggers, delivery resolves. -/
def envOkDeliver : CycleEnv :=
  { now := 60, check := fun _ => .ok true "low2", fetch := fun _ => .response 200 }

/-- Witness for C3 on the demo store. -/
theorem c3_delivery_failure_retry_witness :
    getWatcher (runCycle regA envFailDeliver sA).1 wA.id =
      some (updChecked envFailDeliver.now "low" wA) ∧
    tcOf (runCycle regA envFailDeliver sA).1 wA.id = 0 ∧
    (updChecked envFailDeliver.now "low" wA).lastTriggered = wA.lastTriggered ∧
    1 ≤ (runCycle regA envFailDeliver sA).2.errors ∧
    tcOf (runCycle regA envOkDeliver (runCycle regA envFailDeliver sA).1).1 wA.id = 1 :=
  c3_delivery_failure_retry regA envFailDeliver envOkDeliver sA wA "low" "low2" 200
    (by decide) (by decide) (by decide) ⟨"exec", by decide, by decide, by decide⟩
    (by decide) rfl rfl rfl rfl

/-! ## Claim C6 -/

/-- C6: Skip semantics — an active watcher that does not resolve (type
missing, executorId absent/empty, or executor unregistered) is counted under
`skipped` and never under `checked` or `errors` (the loop body bumps only
`skipped` and returns the store untouched, continuing with the rest), and
the watcher's persisted record is unchanged after the whole cycle. -/
theorem c6_skip_semantics (reg : Registry) (env : CycleEnv) (s : Store) (w : Watcher)
    (hnd : (watcherIds s).Nodup) (hw : w ∈ s.watchers) (ha : w.status = .active)
    (hres : ¬ resolvesExec reg s w) :
    (∀ (s₀ : Store) (c₀ : Counters), ¬ resolvesExec reg s₀ w →
      processWatcher reg env (s₀, c₀) w = (s₀, { c₀ with skipped := c₀.skipped + 1 })) ∧
    getWatcher (runCycle reg env s).1 w.id = some w ∧
    1 ≤ (runCycle reg env s).2.skipped := by
  obtain ⟨h1, h2⟩ := runCycle_skip_case reg env s w hnd hw ha hres
  exact ⟨fun s₀ c₀ h => processWatcher_of_skip reg env s₀ c₀ w h, h1, h2⟩

/-- The empty registry: "exec" is unregistered. -/
def regE : Registry := []

/-- With the empty registry the demo watcher does not resolve. -/
theorem wA_not_resolves_regE : ¬ resolvesExec regE sA wA := by
  rintro ⟨eid, h1, -, h3⟩
  have h0 : execIdOf sA wA.typeId = some (some "exec") := by decide
  rw [h0] at h1
  have he : eid = "exec" := (Option.some.inj (Option.some.inj h1)).symm
  subst he
  exact absurd h3 (by decide)

/-- Witness for C6: the demo watcher against the empty registry is skipped. -/
theorem c6_skip_semantics_witness :
    (∀ (s₀ : Store) (c₀ : Counters), ¬ resolvesExec regE s₀ wA →
      processWatcher regE envThrowAll (s₀, c₀) wA =
        (s₀, { c₀ with skipped := c₀.skipped + 1 })) ∧
    getWatcher (runCycle regE envThrowAll sA).1 wA.id = some wA ∧
    1 ≤ (runCycle regE envThrowAll sA).2.skipped :=
  c6_skip_semantics regE envThrowAll sA wA (by decide) (by decide) (by decide)
    wA_not_resolves_regE

/-! ## Claim C7 -/

/-- C7: Evaluation-failure frame — when the evaluator call of an active,
resolving watcher throws, the loop body leaves the whole store (hence the
watcher's record with `lastChecked`, `lastCheckResult`, `lastTriggered`,
`triggerCount`) untouched, increments `errors` (together with `checked`),
and returns normally so the cycle continues; the watcher's record is
unchanged after the whole cycle. -/
theorem c7_eval_failure_frame (reg : Registry) (env : CycleEnv) (s : Store) (w : Watcher)
    (hnd : (watcherIds s).Nodup) (hw : w ∈ s.watchers) (ha : w.status = .active)
    (hres : resolvesExec reg s w) (hc : env.check w.id = .throws) :
    (∀ (s₀ : Store) (c₀ : Counters), resolvesExec reg s₀ w →
      processWatcher reg env (s₀, c₀) w =
        (s₀, { c₀ with checked := c₀.checked + 1, errors := c₀.errors + 1 })) ∧
    getWatcher (runCycle reg env s).1 w.id = some w ∧
    1 ≤ (runCycle reg env s).2.errors := by
  obtain ⟨h1, h2⟩ := runCycle_throws_case reg env s w hnd hw ha hres hc
  exact ⟨fun s₀ c₀ h => processWatcher_of_throws reg env s₀ c₀ w h hc, h1, h2⟩

/-- Witness for C7: the demo watcher with a throwing evaluator. -/
theorem c7_eval_failure_frame_witness :
    (∀ (s₀ : Store) (c₀ : Counters), resolvesExec regA s₀ wA →
      processWatcher regA envThrowAll (s₀, c₀) wA =
        (s₀, { c₀ with checked := c₀.checked + 1, errors := c₀.errors + 1 })) ∧
    getWatcher (runCycle regA envThrowAll sA).1 wA.id = some wA ∧
    1 ≤ (runCycle regA envThrowAll sA).2.errors :=
  c7_eval_failure_frame regA envThrowAll sA wA (by decide) (by decide) (by decide)
    ⟨"exec", by decide, by decide, by decide⟩ rfl

/-! ## Claim C9 -/

/-- C9: Delivery success is judged only by whether the `fetch` call throws,
never by the HTTP response status — for any resolved status (including
4xx/5xx) the loop body commits the full trigger bookkeeping (`lastTriggered`
set, `triggerCount` incremented), bumps the operator and watcher-type
trigger stats, and counts the watcher under `triggered` (not `errors`). -/
theorem c9_delivery_status_ignored (reg : Registry) (env : CycleEnv) (s : Store)
    (w : Watcher) (d : CheckData) (st : Nat)
    (hnd : (watcherIds s).Nodup) (hw : w ∈ s.watchers) (ha : w.status = .active)
    (hres : resolvesExec reg s w) (hc : env.check w.id = .ok true d)
    (hf : env.fetch w.id = .response st)
    (hop : (getOperator s w.operatorId).isSome = true) :
    (∀ (s₀ : Store) (c₀ : Counters), resolvesExec reg s₀ w →
      processWatcher reg env (s₀, c₀) w =
        (commitTrigger env s₀ w d,
         { c₀ with checked := c₀.checked + 1, triggered := c₀.triggered + 1 })) ∧
    getWatcher (runCycle reg env s).1 w.id =
      some (updTrig env.now w.triggerCount (updChecked env.now d w)) ∧
    1 ≤ (runCycle reg env s).2.triggered ∧
    opTT s w.operatorId + 1 ≤ opTT (runCycle reg env s).1 w.operatorId ∧
    wtTriggers s w.typeId + 1 ≤ wtTriggers (runCycle reg env s).1 w.typeId := by
  obtain ⟨h1, h2⟩ := runCycle_deliverOk_case reg env s w d st hnd hw ha hres hc hf
  obtain ⟨h3, h4⟩ := runCycle_deliverOk_stats reg env s w d st hnd hw ha hres hc hf hop
  exact ⟨fun s₀ c₀ h => processWatcher_of_deliverOk reg env s₀ c₀ w d st h hc hf,
    h1, h2, h3, h4⟩

/-- The C9 witness environment: the webhook endpoint answers HTTP 500. -/
def envStatus500 : CycleEnv :=
  { now := 70, check := fun _ => .ok true "hit", fetch := fun _ => .response 500 }

/-- Witness for C9: a 500 response still counts as a successful delivery. -/
theorem c9_delivery_status_ignored_witness :
    (∀ (s₀ : Store) (c₀ : Counters), resolvesExec regA s₀ wA →
      processWatcher regA envStatus500 (s₀, c₀) wA =
        (commitTrigger envStatus500 s₀ wA "hit",
         { c₀ with checked := c₀.checked + 1, triggered := c₀.triggered + 1 })) ∧
    getWatcher (runCycle regA envStatus500 sA).1 wA.id =
      some (updTrig envStatus500.now wA.triggerCount
        (updChecked envStatus500.now "hit" wA)) ∧
    1 ≤ (runCycle regA envStatus500 sA).2.triggered ∧
    opTT sA wA.operatorId + 1 ≤ opTT (runCycle regA envStatus500 sA).1 wA.operatorId ∧
    wtTriggers sA wA.typeId + 1 ≤ wtTriggers (runCycle regA envStatus500 sA).1 wA.typeId :=
  c9_delivery_status_ignored regA envStatus500 sA wA "hit" 500 (by decide) (by decide)
    (by decide) ⟨"exec", by decide, by decide, by decide⟩ rfl rfl (by decide)

/-! ## Claim C8: reachability machinery -/

/-- The per-record trigger-bookkeeping invariant: `lastTriggered` is set
exactly when `triggerCount` is positive. -/
def WInv (w : Watcher) : Prop :=
  w.lastTriggered.isSome = true ↔ 0 < w.triggerCount

/-- The store invariant maintained by creation and cycles: watcher ids are
pairwise distinct and below the fresh-id counter, and every record satisfies
`WInv`. -/
def GoodW (s : Store) : Prop :=
  (watcherIds s).Nodup ∧
  (∀ i ∈ watcherIds s, i < s.nextId) ∧
  (∀ w ∈ s.watchers, WInv w)

/-- The creation handler either leaves the store alone or takes the
closed-form creation tail for the resolved type. -/
theorem postWatchers_store_spec (reg : Registry) (now : Nat) (req : CreateReq)
    (s : Store) :
    (postWatchers reg now req s).2 = s ∨
    ∃ ty, getWatcherType s req.typeId = some ty ∧
      postWatchers reg now req s = performCreation now req s ty := by
  unfold postWatchers
  cases hr : getReceiptByHash s (requestHash req) with
  | some r =>
    dsimp only
    cases getWatcher s r.watcherId with
    | some ew => exact Or.inl rfl
    | none => exact Or.inl rfl
  | none =>
    dsimp only
    cases hty : getWatcherType s req.typeId with
    | none => exact Or.inl rfl
    | some ty =>
      dsimp only
      cases getOperator s ty.operatorId with
      | none => exact Or.inl rfl
      | some op =>
        dsimp only
        by_cases hweb1 : req.webhook = ""
        · rw [if_pos hweb1]
          exact Or.inl rfl
        · rw [if_neg hweb1]
          split
          · exact Or.inl rfl
          · cases configValidationErrors reg ty req.config with
            | some errs => exact Or.inl rfl
            | none => exact Or.inr ⟨ty, rfl, rfl⟩

/-- The creation handler preserves the store invariant. -/
theorem postWatchers_good (reg : Registry) (now : Nat) (req : CreateReq) (s : Store)
    (hg : GoodW s) : GoodW (postWatchers reg now req s).2 := by
  rcases postWatchers_store_spec reg now req s with h | ⟨ty, hty, h⟩
  · rw [h]
    exact hg
  · rw [h, performCreation_eq]
    dsimp only
    have hids : watcherIds (creationStore now req s ty) =
        watcherIds s ++ [s.nextId] := by
      unfold watcherIds
      rw [creationStore_watchers, List.map_append]
      rfl
    refine ⟨?_, ?_, ?_⟩
    · rw [hids, List.nodup_append]
      refine ⟨hg.1, List.nodup_singleton _, ?_⟩
      intro a ha hb
      have h1 := hg.2.1 a ha
      have h2 : a = s.nextId := by simpa using hb
      omega
    · intro i hi
      rw [hids] at hi
      have hnext : (creationStore now req s ty).nextId = s.nextId + 1 + 1 + 1 := rfl
      rw [hnext]
      rcases List.mem_append.1 hi with h1 | h1
      · have := hg.2.1 i h1
        omega
      · have : i = s.nextId := by simpa using h1
        omega
    · intro w hw
      rw [creationStore_watchers] at hw
      rcases List.mem_append.1 hw with h1 | h1
      · exact hg.2.2 w h1
      · have : w = creationWatcher now req s ty := by simpa using h1
        subst this
        unfold WInv creationWatcher
        simp

/-- The creation handler never decreases any stored trigger count. -/
theorem postWatchers_tcOf_mono (reg : Registry) (now : Nat) (req : CreateReq)
    (s : Store) (i : Nat) :
    tcOf s i ≤ tcOf (postWatchers reg now req s).2 i := by
  rcases postWatchers_store_spec reg now req s with h | ⟨ty, hty, h⟩
  · rw [h]
  · rw [h, performCreation_eq]
    dsimp only
    unfold tcOf getWatcher
    rw [creationStore_watchers]
    cases hf : s.watchers.find? (fun w => w.id == i) with
    | some w0 => rw [find?_append_of_some _ _ _ hf]
    | none =>
      rw [find?_append_of_none _ _ _ hf]
      exact Nat.zero_le _

/-- A watcher that is new after a creation call starts with
`triggerCount = 0` and `lastTriggered = null`. -/
theorem postWatchers_new_watcher (reg : Registry) (now : Nat) (req : CreateReq)
    (s : Store) (w' : Watcher)
    (hmem : w' ∈ (postWatchers reg now req s).2.watchers) (hold : w' ∉ s.watchers) :
    w'.triggerCount = 0 ∧ w'.lastTriggered = none := by
  rcases postWatchers_store_spec reg now req s with h | ⟨ty, hty, h⟩
  · rw [h] at hmem
    exact absurd hmem hold
  · rw [h, performCreation_eq] at hmem
    dsimp only at hmem
    rw [creationStore_watchers] at hmem
    rcases List.mem_append.1 hmem with h1 | h1
    · exact absurd h1 hold
    · have h2 : w' = creationWatcher now req s ty := by simpa using h1
      subst h2
      exact ⟨rfl, rfl⟩

/-- `updateWatcher` with the `lastChecked` update keeps every trigger count. -/
theorem tcOf_updateWatcher_updChecked (s : Store) (j : Nat) (n : Nat) (d : CheckData)
    (i : Nat) : tcOf (updateWatcher s j (updChecked n d)) i = tcOf s i := by
  by_cases hij : i = j
  · subst hij
    unfold tcOf
    rw [getWatcher_updateWatcher_self s i _ (updChecked_id n d)]
    cases getWatcher s i with
    | some w0 => rfl
    | none => rfl
  · unfold tcOf
    rw [getWatcher_updateWatcher_ne s i j _ (updChecked_id n d) hij]

/-- `WInv` survives an `updateFirst`-style watcher update whose function
maps invariant records to invariant records. -/
theorem winv_mem_updateWatcher (s : Store) (j : Nat) (f : Watcher → Watcher)
    (hf : ∀ r, WInv r → WInv (f r))
    (hall : ∀ w ∈ s.watchers, WInv w) :
    ∀ w ∈ (updateWatcher s j f).watchers, WInv w := by
  intro w hw
  rcases mem_updateFirst _ f s.watchers hw with h | ⟨b, hb, h⟩
  · exact hall w h
  · rw [h]
    exact hf b (hall b hb)

/-- One loop-body step preserves the store invariant and never decreases a
trigger count, provided the processed snapshot record carries the stored
trigger count of its id. -/
theorem processWatcher_good_step (reg : Registry) (env : CycleEnv) (s : Store)
    (c : Counters) (w' : Watcher) (hg : GoodW s)
    (htc : tcOf s w'.id = w'.triggerCount) :
    GoodW (processWatcher reg env (s, c) w').1 ∧
    (∀ i, tcOf s i ≤ tcOf (processWatcher reg env (s, c) w').1 i) := by
  have hgen : ∀ (s' : Store), watcherIds s' = watcherIds s → s'.nextId = s.nextId →
      (∀ w ∈ s'.watchers, WInv w) → GoodW s' := by
    intro s' h1 h2 h3
    refine ⟨?_, ?_, h3⟩
    · rw [h1]; exact hg.1
    · intro i hi
      rw [h1] at hi
      rw [h2]
      exact hg.2.1 i hi
  rcases processWatcher_cases reg env s c w' with h | h | ⟨d, h⟩ | ⟨d, h⟩ | ⟨d, h⟩ <;>
    rw [h]
  · exact ⟨hg, fun i => Nat.le_refl _⟩
  · exact ⟨hg, fun i => Nat.le_refl _⟩
  · refine ⟨hgen _ (watcherIds_updateWatcher s w'.id _ (updChecked_id env.now d)) rfl
      (winv_mem_updateWatcher s w'.id _ (fun r hr => hr) hg.2.2), ?_⟩
    intro i
    rw [tcOf_updateWatcher_updChecked]
  · refine ⟨hgen _ (watcherIds_updateWatcher s w'.id _ (updChecked_id env.now d)) rfl
      (winv_mem_updateWatcher s w'.id _ (fun r hr => hr) hg.2.2), ?_⟩
    intro i
    rw [tcOf_updateWatcher_updChecked]
  · have hwatchers : (commitTrigger env s w' d).watchers =
        (updateWatcher (updateWatcher s w'.id (updChecked env.now d)) w'.id
          (updTrig env.now w'.triggerCount)).watchers := rfl
    refine ⟨hgen _ (watcherIds_commitTrigger env s w' d) rfl ?_, ?_⟩
    · intro w hw
      rw [hwatchers] at hw
      refine winv_mem_updateWatcher _ w'.id _ ?_ ?_ w hw
      · intro r _
        unfold WInv updTrig
        simp
      · exact winv_mem_updateWatcher s w'.id _ (fun r hr => hr) hg.2.2
    · intro i
      by_cases hij : i = w'.id
      · subst hij
        unfold tcOf
        rw [getWatcher_commitTrigger_self env s w' d]
        unfold tcOf at htc
        cases hf : getWatcher s w'.id with
        | none =>
          exact Nat.le_refl _
        | some r =>
          rw [hf] at htc
          dsimp only at htc
          dsimp only
          show r.triggerCount ≤ w'.triggerCount + 1
          omega
      · unfold tcOf
        rw [getWatcher_commitTrigger_ne env s w' d i hij]

/-- Folding the loop body over pairwise-distinct snapshot records whose
trigger counts agree with the store preserves the store invariant and never
decreases any trigger count. -/
theorem foldl_pw_good (reg : Registry) (env : CycleEnv) (l : List Watcher) :
    ∀ (s : Store) (c : Counters), GoodW s →
      (l.map (fun w => w.id)).Nodup →
      (∀ x ∈ l, tcOf s x.id = x.triggerCount) →
      GoodW (l.foldl (processWatcher reg env) (s, c)).1 ∧
      (∀ i, tcOf s i ≤ tcOf (l.foldl (processWatcher reg env) (s, c)).1 i) := by
  induction l with
  | nil =>
    intro s c hg _ _
    exact ⟨hg, fun i => Nat.le_refl _⟩
  | cons x xs ih =>
    intro s c hg hnd htc
    rw [List.foldl_cons]
    rw [List.map_cons, List.nodup_cons] at hnd
    obtain ⟨hg1, hmono1⟩ := processWatcher_good_step reg env s c x hg
      (htc x (List.mem_cons_self x xs))
    rcases hp : processWatcher reg env (s, c) x with ⟨s', c'⟩
    rw [hp] at hg1 hmono1
    have htc' : ∀ y ∈ xs, tcOf s' y.id = y.triggerCount := by
      intro y hy
      have hneq : y.id ≠ x.id := by
        intro hcontra
        exact hnd.1 (hcontra ▸ List.mem_map_of_mem (fun w => w.id) hy)
      have hfr := processWatcher_getWatcher_ne reg env s c x y.id hneq
      rw [hp] at hfr
      have heqtc : tcOf s' y.id = tcOf s y.id := by
        unfold tcOf
        rw [hfr]
      rw [heqtc]
      exact htc y (List.mem_cons_of_mem x hy)
    obtain ⟨hgf, hmonof⟩ := ih s' c' hg1 hnd.2 htc'
    exact ⟨hgf, fun i => Nat.le_trans (hmono1 i) (hmonof i)⟩

/-- The cycle preserves the store invariant and never decreases any stored
trigger count. -/
theorem runCycle_good (reg : Registry) (env : CycleEnv) (s : Store) (hg : GoodW s) :
    GoodW (runCycle reg env s).1 ∧
    (∀ i, tcOf s i ≤ tcOf (runCycle reg env s).1 i) := by
  unfold runCycle
  apply foldl_pw_good reg env (activeList s) s Counters.zero hg
  · have hsub : List.Sublist ((activeList s).map (fun w => w.id))
        (s.watchers.map (fun w => w.id)) :=
      List.Sublist.map _ (List.filter_sublist s.watchers)
    exact hg.1.sublist hsub
  · intro x hx
    have hmem : x ∈ s.watchers := List.mem_of_mem_filter hx
    unfold tcOf
    rw [getWatcher_of_mem_nodup s x hg.1 hmem]

/-- The stores reachable from a watcher-free base store by creation requests
and trigger-engine cycles. -/
inductive Reachable (reg : Registry) : Store → Prop
  | base (s : Store) (h : s.watchers = []) : Reachable reg s
  | create (s : Store) (now : Nat) (req : CreateReq) (h : Reachable reg s) :
      Reachable reg (postWatchers reg now req s).2
  | cycle (s : Store) (env : CycleEnv) (h : Reachable reg s) :
      Reachable reg (runCycle reg env s).1

/-- Every reachable store satisfies the invariant. -/
theorem reachable_good (reg : Registry) (s : Store) (h : Reachable reg s) : GoodW s := by
  induction h with
  | base s h =>
    refine ⟨?_, ?_, ?_⟩ <;> simp [watcherIds, h]
  | create s now req h ih => exact postWatchers_good reg now req s ih
  | cycle s env h ih => exact (runCycle_good reg env s ih).1

/-! ## Claim C8 -/

/-- C8: Trigger-bookkeeping invariant — in every store reachable by
creations and cycles, each watcher satisfies
`lastTriggered set ↔ triggerCount > 0` (the two fields move together, and
in the code they move only in the delivery-success branch); creation
establishes `triggerCount = 0` and `lastTriggered = null` for the new
record; and no cycle or creation ever decreases a stored trigger count
(non-negativity is inherent in the ℕ-valued model, matching the
non-negative JS counter). -/
theorem c8_trigger_bookkeeping (reg : Registry) (s : Store) (h : Reachable reg s) :
    (∀ w ∈ s.watchers, (w.lastTriggered.isSome = true ↔ 0 < w.triggerCount)) ∧
    (∀ (now : Nat) (req : CreateReq) (w' : Watcher),
      w' ∈ (postWatchers reg now req s).2.watchers → w' ∉ s.watchers →
      w'.triggerCount = 0 ∧ w'.lastTriggered = none) ∧
    (∀ (env : CycleEnv) (i : Nat), tcOf s i ≤ tcOf (runCycle reg env s).1 i) ∧
    (∀ (now : Nat) (req : CreateReq) (i : Nat),
      tcOf s i ≤ tcOf (postWatchers reg now req s).2 i) := by
  have hg := reachable_good reg s h
  exact ⟨hg.2.2,
    fun now req w' hm ho => postWatchers_new_watcher reg now req s w' hm ho,
    fun env i => (runCycle_good reg env s hg).2 i,
    fun now req i => postWatchers_tcOf_mono reg now req s i⟩

/-- Witness for C8: instantiated at the watcher-free demo store, one
creation step and one cycle step. -/
theorem c8_trigger_bookkeeping_witness :
    tcOf sB 5 ≤ tcOf (runCycle regA envThrowAll sB).1 5 ∧
    tcOf sB 5 ≤ tcOf (postWatchers regA 0 reqB sB).2 5 :=
  ⟨(c8_trigger_bookkeeping regA sB (Reachable.base sB rfl)).2.2.1 envThrowAll 5,
   (c8_trigger_bookkeeping regA sB (Reachable.base sB rfl)).2.2.2 0 reqB 5⟩
